import Mathlib

/-!
PCI configuration-space accessors: a shallow embedding of the six sized
accessors and of the capability-list search of `drivers/pci/pci_config.c`,
followed by the properties proved about them.

* C integers are natural numbers; every narrowing the C code performs is an
  explicit `%` (bit-field stores, the `(uint16_t)` and `(uint8_t)` casts, the
  `uint8_t` addition in the list walk).
* What the module takes from the header `pci/pci_mgr.h` (four constants and the
  widths of the bit-fields of `union pci_addr_reg`) is a parameter, `pci_mgr`.
* The raw primitives `pci_read` and `pci_write` are external to the module; they
  are a parameter too, `raw_pci`, over an arbitrary hardware state.
* The `while` loop of the search is embedded as its one-pass function and the
  number of passes made.
-/

namespace PciConfig

/-- What `pci_config.c` takes from `pci/pci_mgr.h`: the controller identifier,
the two configuration-header offsets, the status mask, and the widths in bits of
the five bit-fields of `union pci_addr_reg` that the accessors assign. -/
structure pci_mgr where
  DEFAULT_PCI_CONTROLLER : Nat
  PCI_CFG_STATUS : Nat
  PCI_CFG_CAP_PTR : Nat
  PCI_STATUS_NEW_CAP : Nat
  bus_bits : Nat
  device_bits : Nat
  func_bits : Nat
  reg_bits : Nat
  offset_bits : Nat

/-- The fields of `union pci_addr_reg` that the accessors assign
(`pci_addr.field.bus`, `.device`, `.func`, `.reg`, `.offset`). -/
structure pci_addr_reg where
  bus : Nat
  device : Nat
  func : Nat
  reg : Nat
  offset : Nat
deriving DecidableEq

/-- Assignment of an unsigned value to a bit-field `width` bits wide: the value
is reduced modulo `2 ^ width`. -/
def bitfield (width value : Nat) : Nat :=
  value % 2 ^ width

/-- The raw transfer primitives, over a hardware state `σ`:
`pci_read (controller, addr, size, &data)` yields the 32-bit value it stores
through `data` and the next state; `pci_write (controller, addr, size, data)`
yields the next state. -/
structure raw_pci (σ : Type) where
  pci_read : Nat → pci_addr_reg → Nat → σ → Nat × σ
  pci_write : Nat → pci_addr_reg → Nat → Nat → σ → σ

/-- `pci_config_out_long`: lines 67-83. -/
def pci_config_out_long {σ : Type} (H : pci_mgr) (P : raw_pci σ)
    (bus_no device_no func_no offset data : Nat) (s : σ) : σ :=
  let pci_addr : pci_addr_reg :=
    { bus := bitfield H.bus_bits bus_no
      device := bitfield H.device_bits device_no
      func := bitfield H.func_bits func_no
      reg := bitfield H.reg_bits (offset / 4)
      offset := bitfield H.offset_bits 0 }
  P.pci_write H.DEFAULT_PCI_CONTROLLER pci_addr 4 data s

/-- `pci_config_out_word`: lines 97-113. -/
def pci_config_out_word {σ : Type} (H : pci_mgr) (P : raw_pci σ)
    (bus_no device_no func_no offset data : Nat) (s : σ) : σ :=
  let pci_addr : pci_addr_reg :=
    { bus := bitfield H.bus_bits bus_no
      device := bitfield H.device_bits device_no
      func := bitfield H.func_bits func_no
      reg := bitfield H.reg_bits (offset / 4)
      offset := bitfield H.offset_bits (offset &&& 2) }
  P.pci_write H.DEFAULT_PCI_CONTROLLER pci_addr 2 data s

/-- `pci_config_out_byte`: lines 127-143. -/
def pci_config_out_byte {σ : Type} (H : pci_mgr) (P : raw_pci σ)
    (bus_no device_no func_no offset data : Nat) (s : σ) : σ :=
  let pci_addr : pci_addr_reg :=
    { bus := bitfield H.bus_bits bus_no
      device := bitfield H.device_bits device_no
      func := bitfield H.func_bits func_no
      reg := bitfield H.reg_bits (offset / 4)
      offset := bitfield H.offset_bits (offset % 4) }
  P.pci_write H.DEFAULT_PCI_CONTROLLER pci_addr 1 data s

/-- `pci_config_in_long`: lines 158-174.  The first component is the value left
in `*data`. -/
def pci_config_in_long {σ : Type} (H : pci_mgr) (P : raw_pci σ)
    (bus_no device_no func_no offset : Nat) (s : σ) : Nat × σ :=
  let pci_addr : pci_addr_reg :=
    { bus := bitfield H.bus_bits bus_no
      device := bitfield H.device_bits device_no
      func := bitfield H.func_bits func_no
      reg := bitfield H.reg_bits (offset / 4)
      offset := bitfield H.offset_bits 0 }
  P.pci_read H.DEFAULT_PCI_CONTROLLER pci_addr 4 s

/-- `pci_config_in_word`: lines 190-211.  The raw primitive fills the 32-bit
scratch `pci_data`; `*data = (uint16_t)pci_data`. -/
def pci_config_in_word {σ : Type} (H : pci_mgr) (P : raw_pci σ)
    (bus_no device_no func_no offset : Nat) (s : σ) : Nat × σ :=
  let pci_addr : pci_addr_reg :=
    { bus := bitfield H.bus_bits bus_no
      device := bitfield H.device_bits device_no
      func := bitfield H.func_bits func_no
      reg := bitfield H.reg_bits (offset / 4)
      offset := bitfield H.offset_bits (offset &&& 2) }
  let r := P.pci_read H.DEFAULT_PCI_CONTROLLER pci_addr 2 s
  (r.1 % 2 ^ 16, r.2)

/-- `pci_config_in_byte`: lines 227-248.  The raw primitive fills the 32-bit
scratch `pci_data`; `*data = (uint8_t)pci_data`. -/
def pci_config_in_byte {σ : Type} (H : pci_mgr) (P : raw_pci σ)
    (bus_no device_no func_no offset : Nat) (s : σ) : Nat × σ :=
  let pci_addr : pci_addr_reg :=
    { bus := bitfield H.bus_bits bus_no
      device := bitfield H.device_bits device_no
      func := bitfield H.func_bits func_no
      reg := bitfield H.reg_bits (offset / 4)
      offset := bitfield H.offset_bits (offset % 4) }
  let r := P.pci_read H.DEFAULT_PCI_CONTROLLER pci_addr 1 s
  (r.1 % 2 ^ 8, r.2)

/-- What `pci_config_ext_cap_ptr_find` leaves behind when it returns: the `int`
it returns, the content of `*p_offset`, and the hardware state. -/
structure find_result (σ : Type) where
  ret : Int
  p_offset : Nat
  world : σ

/-- Control state of `pci_config_ext_cap_ptr_find` at the test of its `while`
loop (line 298): still in the loop with the current `cap_offset`, the content
of `*p_offset` and the hardware state, or already returned. -/
inductive loop_state (σ : Type) where
  | running (cap_offset : Nat) (p_offset : Nat) (s : σ)
  | returned (r : find_result σ)

/-- One pass through the loop test and body, lines 298-312.  A zero
`cap_offset` leaves the loop and reaches `return -1` (line 314).  Otherwise the
ID byte is read at `cap_offset`; a match stores `cap_offset` through `p_offset`
and returns 0; a mismatch reads the next `cap_offset` at
`tmp_offset = cap_offset + (uint8_t)0x01`, an 8-bit value. -/
def cap_loop_iter {σ : Type} (H : pci_mgr) (P : raw_pci σ)
    (ext_cap_find_id bus device function : Nat) : loop_state σ → loop_state σ
  | .returned r => .returned r
  | .running cap_offset p_offset s =>
    if cap_offset = 0x00 then
      .returned { ret := -1, p_offset := p_offset, world := s }
    else
      let r1 := pci_config_in_byte H P bus device function cap_offset s
      if r1.1 = ext_cap_find_id then
        .returned { ret := 0, p_offset := cap_offset, world := r1.2 }
      else
        let tmp_offset := (cap_offset + 0x01) % 2 ^ 8
        let r2 := pci_config_in_byte H P bus device function tmp_offset r1.2
        .running r2.1 p_offset r2.2

/-- The loop after `n` passes. -/
def cap_loop_run {σ : Type} (H : pci_mgr) (P : raw_pci σ)
    (ext_cap_find_id bus device function : Nat) : Nat → loop_state σ → loop_state σ
  | 0, st => st
  | n + 1, st =>
    cap_loop_run H P ext_cap_find_id bus device function n
      (cap_loop_iter H P ext_cap_find_id bus device function st)

/-- Control state of `pci_config_ext_cap_ptr_find` (lines 268-315) once the
code before the loop has run and the loop has made `n` passes.  `p_offset` is
the content of `*p_offset` on entry.  `cap_offset &= ~0x02` on the 8-bit
`cap_offset` is the mask `0xFD`. -/
def pci_config_ext_cap_ptr_find_run {σ : Type} (H : pci_mgr) (P : raw_pci σ)
    (n : Nat) (ext_cap_find_id bus device function p_offset : Nat) (s : σ) :
    loop_state σ :=
  let r0 := pci_config_in_word H P bus device function H.PCI_CFG_STATUS s
  if r0.1 &&& H.PCI_STATUS_NEW_CAP = 0 then
    .returned { ret := -1, p_offset := p_offset, world := r0.2 }
  else
    let r1 := pci_config_in_byte H P bus device function H.PCI_CFG_CAP_PTR r0.2
    let cap_offset := r1.1 &&& 0xFD
    if cap_offset < 0x40 then
      .returned { ret := -1, p_offset := p_offset, world := r1.2 }
    else
      cap_loop_run H P ext_cap_find_id bus device function n
        (.running cap_offset p_offset r1.2)

/-- `pci_config_ext_cap_ptr_find`, lines 268-315, with `fuel` bounding the
number of passes through the loop: `none` when the loop is still running after
`fuel` passes. -/
def pci_config_ext_cap_ptr_find {σ : Type} (H : pci_mgr) (P : raw_pci σ)
    (fuel : Nat) (ext_cap_find_id bus device function p_offset : Nat) (s : σ) :
    Option (find_result σ) :=
  match pci_config_ext_cap_ptr_find_run H P fuel ext_cap_find_id bus device
      function p_offset s with
  | .returned r => some r
  | .running _ _ _ => none

/-! Transactions. -/

/-- One call of a raw primitive, with its arguments. -/
inductive pci_txn where
  | read (controller : Nat) (addr : pci_addr_reg) (size : Nat)
  | write (controller : Nat) (addr : pci_addr_reg) (size : Nat) (data : Nat)
deriving DecidableEq

/-- Address descriptor handed to the raw primitive in a transaction. -/
def pci_txn.addr : pci_txn → pci_addr_reg
  | .read _ a _ => a
  | .write _ a _ _ => a

/-- The primitives `P`, recording each call at the end of a log. -/
def raw_pci.logged {σ : Type} (P : raw_pci σ) : raw_pci (σ × List pci_txn) where
  pci_read c a n st :=
    ((P.pci_read c a n st.1).1, ((P.pci_read c a n st.1).2, st.2 ++ [pci_txn.read c a n]))
  pci_write c a n d st :=
    (P.pci_write c a n d st.1, st.2 ++ [pci_txn.write c a n d])

/-! Simulated configuration space. -/

/-- Modelled from the spec: the simulated raw primitive of the testable
properties, "a simulated raw primitive that stores/retrieves by encoded
address".  The state maps each address descriptor to the 32-bit value held
there; a read returns it and leaves the state alone, a write replaces it. -/
def sim_pci : raw_pci (pci_addr_reg → Nat) where
  pci_read _ a _ mem := (mem a, mem)
  pci_write _ a _ d mem := Function.update mem a d

/-- Simulated configuration space given by its bytes: the descriptor
`(reg, offset)` holds the little-endian 32-bit window that starts at byte
`4 * reg + offset`. -/
def cfg_of_bytes (b : Nat → Nat) : pci_addr_reg → Nat := fun a =>
  b (4 * a.reg + a.offset) % 256 + 2 ^ 8 * (b (4 * a.reg + a.offset + 1) % 256)
    + 2 ^ 16 * (b (4 * a.reg + a.offset + 2) % 256)
    + 2 ^ 24 * (b (4 * a.reg + a.offset + 3) % 256)

/-- An instance of the header parameters, used to evaluate the code on
concrete inputs: controller 0, STATUS at `0x06`, CAP_PTR at `0x34`,
capabilities-list bit `0x0010`, and the fields bus 8, device 5, function 3,
register 6 and byte lane 2 bits wide, as in the PCI CONFIG_ADDRESS register.
The general theorems hold for every header. -/
def pci_mgr_std : pci_mgr where
  DEFAULT_PCI_CONTROLLER := 0
  PCI_CFG_STATUS := 0x06
  PCI_CFG_CAP_PTR := 0x34
  PCI_STATUS_NEW_CAP := 0x0010
  bus_bits := 8
  device_bits := 5
  func_bits := 3
  reg_bits := 6
  offset_bits := 2

/-- The byte the byte accessor returns at `offset` of a simulated
configuration space. -/
def cfg_byte (H : pci_mgr) (mem : pci_addr_reg → Nat) (bus device function offset : Nat) :
    Nat :=
  (pci_config_in_byte H sim_pci bus device function offset mem).1

/-- The 16-bit STATUS word of a simulated configuration space. -/
def cfg_status (H : pci_mgr) (mem : pci_addr_reg → Nat) (bus device function : Nat) : Nat :=
  (pci_config_in_word H sim_pci bus device function H.PCI_CFG_STATUS mem).1

/-- The capability list as the search walks it: `cap_walk c n` is the offset
reached from offset `c` after following `n` next-pointers, the next-pointer of
the node at `c` being the byte at the 8-bit offset `c + 1`. -/
def cap_walk (H : pci_mgr) (mem : pci_addr_reg → Nat) (bus device function : Nat) :
    Nat → Nat → Nat
  | c, 0 => c
  | c, n + 1 =>
    cap_walk H mem bus device function
      (cfg_byte H mem bus device function ((c + 1) % 2 ^ 8)) n

/-- The chain of capability offsets of a simulated configuration space: it
starts at the CAP_PTR byte with bit 1 cleared. -/
def cap_chain (H : pci_mgr) (mem : pci_addr_reg → Nat) (bus device function n : Nat) : Nat :=
  cap_walk H mem bus device function
    (cfg_byte H mem bus device function H.PCI_CFG_CAP_PTR &&& 0xFD) n

/-- The claim's example: STATUS `0x0010`, CAP_PTR `0x40`, node `0x40` with
id `0x01` and next `0x48`, node `0x48` with id `0x05` and next `0x00`. -/
def example_bytes : Nat → Nat := fun o =>
  if o = 0x06 then 0x10 else if o = 0x34 then 0x40
  else if o = 0x40 then 0x01 else if o = 0x41 then 0x48
  else if o = 0x48 then 0x05 else 0x00

/-- The claim's example list with STATUS `0x0000`. -/
def no_cap_bytes : Nat → Nat := fun o =>
  if o = 0x06 then 0x00 else if o = 0x07 then 0x00 else example_bytes o

/-- A configuration space with the bit set and CAP_PTR `0x22`; the byte at the
masked pointer `0x20` is `0x05`. -/
def low_ptr_bytes : Nat → Nat := fun o =>
  if o = 0x06 then 0x10 else if o = 0x34 then 0x22 else if o = 0x20 then 0x05 else 0x00

/-- A configuration space whose only node, at `0x40`, has ID `0x01` and points
to itself. -/
def self_cycle_bytes : Nat → Nat := fun o =>
  if o = 0x06 then 0x10 else if o = 0x34 then 0x40
  else if o = 0x40 then 0x01 else if o = 0x41 then 0x40 else 0x00


/-- Hardware state carried by a control state of the search. -/
def loop_state.world {σ : Type} : loop_state σ → σ
  | .running _ _ s => s
  | .returned r => r.world

/-- Whether a transaction is a call of `pci_read`. -/
def pci_txn.is_read : pci_txn → Bool
  | .read _ _ _ => true
  | .write _ _ _ _ => false

/-- Width in bytes of a transaction. -/
def pci_txn.size : pci_txn → Nat
  | .read _ _ n => n
  | .write _ _ n _ => n

/-- Whether a transaction is a read of width 1, as `pci_config_in_byte`
issues. -/
def pci_txn.is_byte_read (t : pci_txn) : Bool :=
  t.is_read && t.size == 1

/-- A configuration space with the bit set and the odd CAP_PTR `0x41`. -/
def odd_ptr_bytes : Nat → Nat := fun o =>
  if o = 0x06 then 0x10 else if o = 0x34 then 0x41 else 0x00

/-- A configuration space with a node at `0xFF`: byte `0xFF` holds the ID
`0x02`, byte `0x100` holds `0x00` and byte `0x00` holds `0x48`. -/
def wrap_bytes : Nat → Nat := fun o =>
  if o = 0x06 then 0x10 else if o = 0x34 then 0x40
  else if o = 0x40 then 0x01 else if o = 0x41 then 0xFF
  else if o = 0xFF then 0x02 else if o = 0x100 then 0x00
  else if o = 0x00 then 0x48 else if o = 0x48 then 0x05 else 0x00

/-- The example of a hit below the floor: STATUS `0x0010`, CAP_PTR `0x40`, node
`0x40` with id `0x01` and next `0x10`, byte `0x10` holding `0x05`. -/
def below_floor_bytes : Nat → Nat := fun o =>
  if o = 0x06 then 0x10 else if o = 0x34 then 0x40
  else if o = 0x40 then 0x01 else if o = 0x41 then 0x10
  else if o = 0x10 then 0x05 else 0x00

/-- First node of the list built by `reach_bytes`: `0x40`, or `0x44` when the
offset to reach is `0x40` or `0x41`. -/
def reach_head (o : Nat) : Nat :=
  if o = 0x40 ∨ o = 0x41 then 0x44 else 0x40

/-- ID looked up in `reach_bytes o`: the byte that sits at `o`. -/
def reach_id (o : Nat) : Nat :=
  if o = 0x06 then 0x10 else if o = 0x34 then reach_head o else 0x05

/-- A configuration space whose list has the offset `o` as its second node:
the first node, at `reach_head o`, has ID `0x01` and next-pointer `o`, and the
byte at `o` is `reach_id o`. -/
def reach_bytes (o : Nat) : Nat → Nat := fun x =>
  if x = 0x06 then 0x10 else if x = 0x34 then reach_head o
  else if x = reach_head o then 0x01 else if x = reach_head o + 1 then o
  else if x = o then reach_id o else 0x00

/-- A configuration space with the bit set and CAP_PTR `0x42`: the byte at
`0x42` is `0x05`, and the node at `0x40` has ID `0x01` and next-pointer
`0x00`. -/
def masked_ptr_bytes : Nat → Nat := fun o =>
  if o = 0x06 then 0x10 else if o = 0x34 then 0x42
  else if o = 0x40 then 0x01 else if o = 0x41 then 0x00
  else if o = 0x42 then 0x05 else 0x00

/-- A configuration space whose list has the offset `o` as its first node,
with ID `0x05`: CAP_PTR holds `o`. -/
def first_bytes (o : Nat) : Nat → Nat := fun x =>
  if x = 0x06 then 0x10 else if x = 0x34 then o
  else if x = o then 0x05 else 0x00

/-! The accessors and the search on the simulated configuration space. -/

theorem in_byte_sim (H : pci_mgr) (mem : pci_addr_reg → Nat) (bus device function o : Nat) :
    pci_config_in_byte H sim_pci bus device function o mem
      = (cfg_byte H mem bus device function o, mem) := rfl

theorem in_word_sim_world (H : pci_mgr) (mem : pci_addr_reg → Nat)
    (bus device function o : Nat) :
    (pci_config_in_word H sim_pci bus device function o mem).2 = mem := rfl

theorem cap_loop_iter_sim (H : pci_mgr) (mem : pci_addr_reg → Nat)
    (id bus device function c p : Nat) :
    cap_loop_iter H sim_pci id bus device function (.running c p mem)
      = if c = 0 then .returned { ret := -1, p_offset := p, world := mem }
        else if cfg_byte H mem bus device function c = id then
          .returned { ret := 0, p_offset := c, world := mem }
        else .running (cfg_byte H mem bus device function ((c + 1) % 2 ^ 8)) p mem := rfl

theorem cap_loop_run_returned {σ : Type} (H : pci_mgr) (P : raw_pci σ)
    (id bus device function : Nat) (r : find_result σ) (n : Nat) :
    cap_loop_run H P id bus device function n (.returned r) = .returned r := by
  induction n with
  | zero => rfl
  | succ n ih => simpa [cap_loop_run, cap_loop_iter] using ih

theorem cap_walk_succ (H : pci_mgr) (mem : pci_addr_reg → Nat)
    (bus device function c n : Nat) :
    cap_walk H mem bus device function c (n + 1)
      = cap_walk H mem bus device function
          (cfg_byte H mem bus device function ((c + 1) % 2 ^ 8)) n := rfl

/-- The loop on a simulated configuration space, classified: after `n` passes
from offset `c` it is still running, at the offset `n` links further, exactly
when none of the first `n` offsets is zero or carries the wanted ID; otherwise
it has returned at the first offset `m` that is zero (with -1) or carries the
ID (with 0 and that offset). -/
theorem cap_loop_run_sim (H : pci_mgr) (mem : pci_addr_reg → Nat)
    (id bus device function p : Nat) (n : Nat) : ∀ c : Nat,
    ((∀ j, j < n → cap_walk H mem bus device function c j ≠ 0 ∧
        cfg_byte H mem bus device function (cap_walk H mem bus device function c j) ≠ id) ∧
      cap_loop_run H sim_pci id bus device function n (.running c p mem)
        = .running (cap_walk H mem bus device function c n) p mem) ∨
    (∃ m, m < n ∧
      (∀ j, j < m → cap_walk H mem bus device function c j ≠ 0 ∧
        cfg_byte H mem bus device function (cap_walk H mem bus device function c j) ≠ id) ∧
      cap_walk H mem bus device function c m = 0 ∧
      cap_loop_run H sim_pci id bus device function n (.running c p mem)
        = .returned { ret := -1, p_offset := p, world := mem }) ∨
    (∃ m, m < n ∧
      (∀ j, j < m → cap_walk H mem bus device function c j ≠ 0 ∧
        cfg_byte H mem bus device function (cap_walk H mem bus device function c j) ≠ id) ∧
      cap_walk H mem bus device function c m ≠ 0 ∧
      cfg_byte H mem bus device function (cap_walk H mem bus device function c m) = id ∧
      cap_loop_run H sim_pci id bus device function n (.running c p mem)
        = .returned { ret := 0, p_offset := cap_walk H mem bus device function c m,
                      world := mem }) := by
  induction n with
  | zero =>
    intro c
    exact Or.inl ⟨fun j hj => absurd hj (Nat.not_lt_zero j), rfl⟩
  | succ n ih =>
    intro c
    have hrun : cap_loop_run H sim_pci id bus device function (n + 1) (.running c p mem)
        = cap_loop_run H sim_pci id bus device function n
            (cap_loop_iter H sim_pci id bus device function (.running c p mem)) := rfl
    rw [hrun, cap_loop_iter_sim]
    by_cases hc : c = 0
    · refine Or.inr (Or.inl ⟨0, Nat.succ_pos n, fun j hj => absurd hj (Nat.not_lt_zero j), hc, ?_⟩)
      rw [if_pos hc, cap_loop_run_returned]
    · by_cases hid : cfg_byte H mem bus device function c = id
      · refine Or.inr (Or.inr ⟨0, Nat.succ_pos n,
          fun j hj => absurd hj (Nat.not_lt_zero j), hc, hid, ?_⟩)
        rw [if_neg hc, if_pos hid, cap_loop_run_returned]
        rfl
      · rw [if_neg hc, if_neg hid]
        have hshift : ∀ m, (∀ j, j < m →
            cap_walk H mem bus device function
                (cfg_byte H mem bus device function ((c + 1) % 2 ^ 8)) j ≠ 0 ∧
              cfg_byte H mem bus device function (cap_walk H mem bus device function
                (cfg_byte H mem bus device function ((c + 1) % 2 ^ 8)) j) ≠ id) →
            ∀ j, j < m + 1 → cap_walk H mem bus device function c j ≠ 0 ∧
              cfg_byte H mem bus device function
                (cap_walk H mem bus device function c j) ≠ id := by
          intro m hm j hj
          cases j with
          | zero => exact ⟨hc, hid⟩
          | succ j => exact hm j (Nat.lt_of_succ_lt_succ hj)
        rcases ih (cfg_byte H mem bus device function ((c + 1) % 2 ^ 8)) with
          ⟨hgood, hr⟩ | ⟨m, hm, hgood, hz, hr⟩ | ⟨m, hm, hgood, hnz, hmatch, hr⟩
        · exact Or.inl ⟨hshift n hgood, hr⟩
        · exact Or.inr (Or.inl ⟨m + 1, Nat.succ_lt_succ hm, hshift m hgood, hz, hr⟩)
        · exact Or.inr (Or.inr ⟨m + 1, Nat.succ_lt_succ hm, hshift m hgood, hnz, hmatch, hr⟩)

/-- On a simulated configuration space with the new-capabilities bit set and a
masked initial pointer of at least `0x40`, the search is in its loop, started
at the head of the chain. -/
theorem find_run_sim (H : pci_mgr) (mem : pci_addr_reg → Nat)
    (id bus device function p n : Nat)
    (hstat : cfg_status H mem bus device function &&& H.PCI_STATUS_NEW_CAP ≠ 0)
    (hptr : 0x40 ≤ cap_chain H mem bus device function 0) :
    pci_config_ext_cap_ptr_find_run H sim_pci n id bus device function p mem
      = cap_loop_run H sim_pci id bus device function n
          (.running (cap_chain H mem bus device function 0) p mem) := by
  have h1 : ¬ (pci_config_in_word H sim_pci bus device function H.PCI_CFG_STATUS mem).1
      &&& H.PCI_STATUS_NEW_CAP = 0 := hstat
  have h2 : ¬ (pci_config_in_byte H sim_pci bus device function H.PCI_CFG_CAP_PTR
      (pci_config_in_word H sim_pci bus device function H.PCI_CFG_STATUS mem).2).1
        &&& 0xFD < 0x40 := Nat.not_lt.mpr hptr
  unfold pci_config_ext_cap_ptr_find_run
  simp only [if_neg h1, if_neg h2]
  rfl

theorem cap_chain_eq_walk (H : pci_mgr) (mem : pci_addr_reg → Nat)
    (bus device function n : Nat) :
    cap_walk H mem bus device function (cap_chain H mem bus device function 0) n
      = cap_chain H mem bus device function n := rfl

/-- The search on a simulated configuration space whose status bit is set and
whose masked initial pointer is at least `0x40`, in terms of the chain: with
`fuel` passes it is either still running (no zero offset and no match among the
first `fuel` chain offsets), or has returned -1 at the first zero offset, or
has returned 0 with the first matching offset. -/
theorem find_sim_cases (H : pci_mgr) (mem : pci_addr_reg → Nat)
    (id bus device function p fuel : Nat)
    (hstat : cfg_status H mem bus device function &&& H.PCI_STATUS_NEW_CAP ≠ 0)
    (hptr : 0x40 ≤ cap_chain H mem bus device function 0) :
    ((∀ j, j < fuel → cap_chain H mem bus device function j ≠ 0 ∧
        cfg_byte H mem bus device function (cap_chain H mem bus device function j) ≠ id) ∧
      pci_config_ext_cap_ptr_find_run H sim_pci fuel id bus device function p mem
        = .running (cap_chain H mem bus device function fuel) p mem ∧
      pci_config_ext_cap_ptr_find H sim_pci fuel id bus device function p mem = none) ∨
    (∃ m, m < fuel ∧
      (∀ j, j < m → cap_chain H mem bus device function j ≠ 0 ∧
        cfg_byte H mem bus device function (cap_chain H mem bus device function j) ≠ id) ∧
      cap_chain H mem bus device function m = 0 ∧
      pci_config_ext_cap_ptr_find H sim_pci fuel id bus device function p mem
        = some { ret := -1, p_offset := p, world := mem }) ∨
    (∃ m, m < fuel ∧
      (∀ j, j < m → cap_chain H mem bus device function j ≠ 0 ∧
        cfg_byte H mem bus device function (cap_chain H mem bus device function j) ≠ id) ∧
      cap_chain H mem bus device function m ≠ 0 ∧
      cfg_byte H mem bus device function (cap_chain H mem bus device function m) = id ∧
      pci_config_ext_cap_ptr_find H sim_pci fuel id bus device function p mem
        = some { ret := 0, p_offset := cap_chain H mem bus device function m,
                 world := mem }) := by
  have hrun := find_run_sim H mem id bus device function p fuel hstat hptr
  rcases cap_loop_run_sim H mem id bus device function p fuel
      (cap_chain H mem bus device function 0) with
    ⟨hgood, hr⟩ | ⟨m, hm, hgood, hz, hr⟩ | ⟨m, hm, hgood, hnz, hmatch, hr⟩
  · refine Or.inl ⟨hgood, ?_, ?_⟩
    · rw [hrun, hr]; rfl
    · unfold pci_config_ext_cap_ptr_find
      rw [hrun, hr]
  · refine Or.inr (Or.inl ⟨m, hm, hgood, hz, ?_⟩)
    unfold pci_config_ext_cap_ptr_find
    rw [hrun, hr]
  · refine Or.inr (Or.inr ⟨m, hm, hgood, hnz, hmatch, ?_⟩)
    unfold pci_config_ext_cap_ptr_find
    rw [hrun, hr]
    rfl

/-- C1: on a simulated configuration space whose STATUS word has the
new-capabilities bit set, whose CAP_PTR byte with bit 1 cleared is at least
`0x40`, and whose chain reaches `0x00` after `N` nodes, the search returns 0
with `*p_offset` the offset of the first node in chain order whose ID byte is
the wanted one (any fuel above that node's index suffices), and returns -1,
leaving `*p_offset` alone, when no node of the chain has that ID (fuel `N + 1`
suffices). -/
theorem ext_cap_ptr_find_first_match (H : pci_mgr) (mem : pci_addr_reg → Nat)
    (id bus device function p N : Nat)
    (hstat : cfg_status H mem bus device function &&& H.PCI_STATUS_NEW_CAP ≠ 0)
    (hptr : 0x40 ≤ cap_chain H mem bus device function 0)
    (hend : cap_chain H mem bus device function N = 0)
    (hnodes : ∀ j, j < N → cap_chain H mem bus device function j ≠ 0) :
    (∀ k, k < N →
      cfg_byte H mem bus device function (cap_chain H mem bus device function k) = id →
      (∀ j, j < k →
        cfg_byte H mem bus device function (cap_chain H mem bus device function j) ≠ id) →
      ∀ fuel, k + 1 ≤ fuel →
        pci_config_ext_cap_ptr_find H sim_pci fuel id bus device function p mem
          = some { ret := 0, p_offset := cap_chain H mem bus device function k,
                   world := mem }) ∧
    ((∀ k, k < N →
        cfg_byte H mem bus device function (cap_chain H mem bus device function k) ≠ id) →
      ∀ fuel, N + 1 ≤ fuel →
        pci_config_ext_cap_ptr_find H sim_pci fuel id bus device function p mem
          = some { ret := -1, p_offset := p, world := mem }) := by
  constructor
  · intro k hk hmatch hfirst fuel hfuel
    rcases find_sim_cases H mem id bus device function p fuel hstat hptr with
      ⟨hgood, -, -⟩ | ⟨m, -, hgood, hz, -⟩ | ⟨m, -, hgood, hnz, hm, hr⟩
    · exact absurd hmatch (hgood k (by omega)).2
    · rcases Nat.lt_or_ge k m with hlt | hge
      · exact absurd hmatch (hgood k hlt).2
      · exact absurd hz (hnodes m (by omega))
    · rcases Nat.lt_trichotomy m k with hlt | heq | hgt
      · exact absurd hm (hfirst m hlt)
      · rw [← heq]; exact hr
      · exact absurd hmatch (hgood k hgt).2
  · intro hnone fuel hfuel
    rcases find_sim_cases H mem id bus device function p fuel hstat hptr with
      ⟨hgood, -, -⟩ | ⟨m, -, hgood, hz, hr⟩ | ⟨m, -, hgood, hnz, hm, -⟩
    · exact absurd hend (hgood N (by omega)).1
    · exact hr
    · rcases Nat.lt_or_ge m N with hlt | hge
      · exact absurd hm (hnone m hlt)
      · rcases Nat.eq_or_lt_of_le hge with heq | hlt
        · exact absurd (heq ▸ hend) hnz
        · exact absurd hend (hgood N hlt).1

/-- C1, the claim's example: with nodes `0x40 -> (id 0x01, next 0x48)` and
`0x48 -> (id 0x05, next 0x00)`, looking up `0x05` yields offset `0x48` and
looking up `0x99` yields not-found with `*p_offset` untouched. -/
theorem ext_cap_ptr_find_first_match_witness :
    (cfg_status pci_mgr_std (cfg_of_bytes example_bytes) 0 1 0
        &&& pci_mgr_std.PCI_STATUS_NEW_CAP ≠ 0 ∧
      0x40 ≤ cap_chain pci_mgr_std (cfg_of_bytes example_bytes) 0 1 0 0 ∧
      cap_chain pci_mgr_std (cfg_of_bytes example_bytes) 0 1 0 2 = 0 ∧
      (∀ j, j < 2 → cap_chain pci_mgr_std (cfg_of_bytes example_bytes) 0 1 0 j ≠ 0)) ∧
    pci_config_ext_cap_ptr_find pci_mgr_std sim_pci 3 0x05 0 1 0 7 (cfg_of_bytes example_bytes)
      = some { ret := 0, p_offset := 0x48, world := cfg_of_bytes example_bytes } ∧
    pci_config_ext_cap_ptr_find pci_mgr_std sim_pci 3 0x99 0 1 0 7 (cfg_of_bytes example_bytes)
      = some { ret := -1, p_offset := 7, world := cfg_of_bytes example_bytes } :=
  ⟨⟨by decide, by decide, by decide, by decide⟩,
    (ext_cap_ptr_find_first_match pci_mgr_std (cfg_of_bytes example_bytes) 0x05 0 1 0 7 2
      (by decide) (by decide) (by decide) (by decide)).1 1 (by decide) (by decide)
      (by decide) 3 (by decide),
    (ext_cap_ptr_find_first_match pci_mgr_std (cfg_of_bytes example_bytes) 0x99 0 1 0 7 2
      (by decide) (by decide) (by decide) (by decide)).2 (by decide) 3 (by decide)⟩

/-- With the new-capabilities bit clear the search returns -1 before its loop,
whatever the primitives are. -/
theorem find_of_status_clear {σ : Type} (H : pci_mgr) (P : raw_pci σ)
    (fuel id bus device function p : Nat) (s : σ)
    (hstat : (pci_config_in_word H P bus device function H.PCI_CFG_STATUS s).1
      &&& H.PCI_STATUS_NEW_CAP = 0) :
    pci_config_ext_cap_ptr_find H P fuel id bus device function p s
      = some { ret := -1, p_offset := p,
               world := (pci_config_in_word H P bus device function H.PCI_CFG_STATUS s).2 } := by
  unfold pci_config_ext_cap_ptr_find pci_config_ext_cap_ptr_find_run
  simp only [if_pos hstat]

/-- With the bit set and a masked initial pointer below `0x40` the search
returns -1 before its loop, whatever the primitives are. -/
theorem find_of_low_ptr {σ : Type} (H : pci_mgr) (P : raw_pci σ)
    (fuel id bus device function p : Nat) (s : σ)
    (hstat : (pci_config_in_word H P bus device function H.PCI_CFG_STATUS s).1
      &&& H.PCI_STATUS_NEW_CAP ≠ 0)
    (hptr : (pci_config_in_byte H P bus device function H.PCI_CFG_CAP_PTR
      (pci_config_in_word H P bus device function H.PCI_CFG_STATUS s).2).1 &&& 0xFD < 0x40) :
    pci_config_ext_cap_ptr_find H P fuel id bus device function p s
      = some { ret := -1, p_offset := p,
               world := (pci_config_in_byte H P bus device function H.PCI_CFG_CAP_PTR
                 (pci_config_in_word H P bus device function H.PCI_CFG_STATUS s).2).2 } := by
  have h1 : ¬ (pci_config_in_word H P bus device function H.PCI_CFG_STATUS s).1
      &&& H.PCI_STATUS_NEW_CAP = 0 := hstat
  unfold pci_config_ext_cap_ptr_find pci_config_ext_cap_ptr_find_run
  simp only [if_neg h1, if_pos hptr]

/-- C2: on every simulated configuration space on which the search returns
(some amount of fuel yields a result), it returns -1 exactly when the
new-capabilities bit of STATUS is clear, or the CAP_PTR byte with bit 1 cleared
is below `0x40`, or the chain reaches offset `0x00` with no earlier node
carrying the wanted ID; and a result other than -1 is 0. -/
theorem ext_cap_ptr_find_failure_iff (H : pci_mgr) (mem : pci_addr_reg → Nat)
    (id bus device function p fuel : Nat) (r : find_result (pci_addr_reg → Nat))
    (hret : pci_config_ext_cap_ptr_find H sim_pci fuel id bus device function p mem = some r) :
    (r.ret = -1 ↔
      (cfg_status H mem bus device function &&& H.PCI_STATUS_NEW_CAP = 0 ∨
        cap_chain H mem bus device function 0 < 0x40 ∨
        ∃ n, cap_chain H mem bus device function n = 0 ∧
          ∀ k, k < n →
            cfg_byte H mem bus device function (cap_chain H mem bus device function k) ≠ id)) ∧
    (r.ret ≠ -1 → r.ret = 0) := by
  by_cases hstat : cfg_status H mem bus device function &&& H.PCI_STATUS_NEW_CAP = 0
  · have h := find_of_status_clear H sim_pci fuel id bus device function p mem hstat
    rw [hret] at h
    have hr : r.ret = -1 := by rw [Option.some.inj h]
    exact ⟨⟨fun _ => Or.inl hstat, fun _ => hr⟩, fun hne => absurd hr hne⟩
  · by_cases hptr : cap_chain H mem bus device function 0 < 0x40
    · have h := find_of_low_ptr H sim_pci fuel id bus device function p mem hstat hptr
      rw [hret] at h
      have hr : r.ret = -1 := by rw [Option.some.inj h]
      exact ⟨⟨fun _ => Or.inr (Or.inl hptr), fun _ => hr⟩, fun hne => absurd hr hne⟩
    · rcases find_sim_cases H mem id bus device function p fuel hstat (Nat.not_lt.mp hptr) with
        ⟨-, -, hnone⟩ | ⟨m, -, hgood, hz, hr⟩ | ⟨m, -, hgood, hnz, hm, hr⟩
      · rw [hret] at hnone
        exact absurd hnone (Option.some_ne_none r)
      · rw [hret] at hr
        have hr1 : r.ret = -1 := by rw [Option.some.inj hr]
        exact ⟨⟨fun _ => Or.inr (Or.inr ⟨m, hz, fun k hk => (hgood k hk).2⟩), fun _ => hr1⟩,
          fun hne => absurd hr1 hne⟩
      · rw [hret] at hr
        have hr0 : r.ret = 0 := by rw [Option.some.inj hr]
        refine ⟨⟨fun h => ?_, fun h => ?_⟩, fun _ => hr0⟩
        · rw [hr0] at h
          exact absurd h (by decide)
        · rcases h with h | h | ⟨n, hn, hmiss⟩
          · exact absurd h hstat
          · exact absurd h hptr
          · rcases Nat.lt_trichotomy n m with hlt | heq | hgt
            · exact absurd hn (hgood n hlt).1
            · exact absurd (heq ▸ hn) hnz
            · exact absurd hm (hmiss m hgt)

/-- C2 at the claim's example list, looking up the absent ID `0x99`: the search
returns -1 and the third cause holds. -/
theorem ext_cap_ptr_find_failure_iff_witness :
    pci_config_ext_cap_ptr_find pci_mgr_std sim_pci 3 0x99 0 1 0 7 (cfg_of_bytes example_bytes)
      = some { ret := -1, p_offset := 7, world := cfg_of_bytes example_bytes } ∧
    (((-1 : Int) = -1 ↔
      (cfg_status pci_mgr_std (cfg_of_bytes example_bytes) 0 1 0
          &&& pci_mgr_std.PCI_STATUS_NEW_CAP = 0 ∨
        cap_chain pci_mgr_std (cfg_of_bytes example_bytes) 0 1 0 0 < 0x40 ∨
        ∃ n, cap_chain pci_mgr_std (cfg_of_bytes example_bytes) 0 1 0 n = 0 ∧
          ∀ k, k < n →
            cfg_byte pci_mgr_std (cfg_of_bytes example_bytes) 0 1 0
              (cap_chain pci_mgr_std (cfg_of_bytes example_bytes) 0 1 0 k) ≠ 0x99)) ∧
      ((-1 : Int) ≠ -1 → (-1 : Int) = 0)) :=
  ⟨rfl, ext_cap_ptr_find_failure_iff pci_mgr_std (cfg_of_bytes example_bytes) 0x99 0 1 0 7 3
    { ret := -1, p_offset := 7, world := cfg_of_bytes example_bytes } rfl⟩

/-- C3: whenever the STATUS word read has the new-capabilities bit clear,
whatever the primitives, the hardware state and hence CAP_PTR and every other
configuration byte are, the search returns -1 with `*p_offset` untouched, with
no pass through the loop (any fuel, zero included), and its whole transaction
log is the one 2-byte read of STATUS. -/
theorem ext_cap_ptr_find_no_cap_list {σ : Type} (H : pci_mgr) (P : raw_pci σ)
    (fuel id bus device function p : Nat) (s : σ)
    (hstat : (pci_config_in_word H P bus device function H.PCI_CFG_STATUS s).1
      &&& H.PCI_STATUS_NEW_CAP = 0) :
    pci_config_ext_cap_ptr_find H P fuel id bus device function p s
      = some { ret := -1, p_offset := p,
               world := (pci_config_in_word H P bus device function H.PCI_CFG_STATUS s).2 } ∧
    pci_config_ext_cap_ptr_find H P.logged fuel id bus device function p (s, [])
      = some { ret := -1, p_offset := p,
               world := ((pci_config_in_word H P bus device function H.PCI_CFG_STATUS s).2,
                 [pci_txn.read H.DEFAULT_PCI_CONTROLLER
                   { bus := bitfield H.bus_bits bus
                     device := bitfield H.device_bits device
                     func := bitfield H.func_bits function
                     reg := bitfield H.reg_bits (H.PCI_CFG_STATUS / 4)
                     offset := bitfield H.offset_bits (H.PCI_CFG_STATUS &&& 2) } 2]) } :=
  ⟨find_of_status_clear H P fuel id bus device function p s hstat,
    find_of_status_clear H P.logged fuel id bus device function p (s, []) hstat⟩

/-- C3 at STATUS `0x0000` with a well-formed list behind CAP_PTR that holds the
wanted ID `0x01`: not found, one transaction. -/
theorem ext_cap_ptr_find_no_cap_list_witness :
    (pci_config_in_word pci_mgr_std sim_pci 0 1 0 pci_mgr_std.PCI_CFG_STATUS
        (cfg_of_bytes no_cap_bytes)).1 &&& pci_mgr_std.PCI_STATUS_NEW_CAP = 0 ∧
    pci_config_ext_cap_ptr_find pci_mgr_std sim_pci 0 0x01 0 1 0 7 (cfg_of_bytes no_cap_bytes)
      = some { ret := -1, p_offset := 7, world := cfg_of_bytes no_cap_bytes } ∧
    pci_config_ext_cap_ptr_find pci_mgr_std sim_pci.logged 0 0x01 0 1 0 7
        (cfg_of_bytes no_cap_bytes, [])
      = some { ret := -1, p_offset := 7,
               world := (cfg_of_bytes no_cap_bytes,
                 [pci_txn.read 0 { bus := 0, device := 1, func := 0, reg := 1, offset := 2 } 2]) } :=
  ⟨by decide,
    ext_cap_ptr_find_no_cap_list pci_mgr_std sim_pci 0 0x01 0 1 0 7 (cfg_of_bytes no_cap_bytes)
      (by decide)⟩

/-- C4: whenever the new-capabilities bit is set and the CAP_PTR byte with
bit 1 cleared is below `0x40`, whatever the primitives and the rest of the
configuration space are, the search returns -1 with `*p_offset` untouched and
no pass through the loop, and its whole transaction log is the read of STATUS
followed by the read of CAP_PTR: no ID or next-pointer byte is read. -/
theorem ext_cap_ptr_find_low_ptr {σ : Type} (H : pci_mgr) (P : raw_pci σ)
    (fuel id bus device function p : Nat) (s : σ)
    (hstat : (pci_config_in_word H P bus device function H.PCI_CFG_STATUS s).1
      &&& H.PCI_STATUS_NEW_CAP ≠ 0)
    (hptr : (pci_config_in_byte H P bus device function H.PCI_CFG_CAP_PTR
      (pci_config_in_word H P bus device function H.PCI_CFG_STATUS s).2).1 &&& 0xFD < 0x40) :
    pci_config_ext_cap_ptr_find H P fuel id bus device function p s
      = some { ret := -1, p_offset := p,
               world := (pci_config_in_byte H P bus device function H.PCI_CFG_CAP_PTR
                 (pci_config_in_word H P bus device function H.PCI_CFG_STATUS s).2).2 } ∧
    pci_config_ext_cap_ptr_find H P.logged fuel id bus device function p (s, [])
      = some { ret := -1, p_offset := p,
               world := ((pci_config_in_byte H P bus device function H.PCI_CFG_CAP_PTR
                   (pci_config_in_word H P bus device function H.PCI_CFG_STATUS s).2).2,
                 [pci_txn.read H.DEFAULT_PCI_CONTROLLER
                   { bus := bitfield H.bus_bits bus
                     device := bitfield H.device_bits device
                     func := bitfield H.func_bits function
                     reg := bitfield H.reg_bits (H.PCI_CFG_STATUS / 4)
                     offset := bitfield H.offset_bits (H.PCI_CFG_STATUS &&& 2) } 2,
                  pci_txn.read H.DEFAULT_PCI_CONTROLLER
                   { bus := bitfield H.bus_bits bus
                     device := bitfield H.device_bits device
                     func := bitfield H.func_bits function
                     reg := bitfield H.reg_bits (H.PCI_CFG_CAP_PTR / 4)
                     offset := bitfield H.offset_bits (H.PCI_CFG_CAP_PTR % 4) } 1]) } :=
  ⟨find_of_low_ptr H P fuel id bus device function p s hstat hptr,
    find_of_low_ptr H P.logged fuel id bus device function p (s, []) hstat hptr⟩

/-- C4 at CAP_PTR `0x22` (masked value `0x20`), looking up the ID `0x05` that
sits at `0x20`: not found, two transactions. -/
theorem ext_cap_ptr_find_low_ptr_witness :
    ((pci_config_in_word pci_mgr_std sim_pci 0 1 0 pci_mgr_std.PCI_CFG_STATUS
        (cfg_of_bytes low_ptr_bytes)).1 &&& pci_mgr_std.PCI_STATUS_NEW_CAP ≠ 0 ∧
      (pci_config_in_byte pci_mgr_std sim_pci 0 1 0 pci_mgr_std.PCI_CFG_CAP_PTR
        (cfg_of_bytes low_ptr_bytes)).1 &&& 0xFD = 0x20) ∧
    pci_config_ext_cap_ptr_find pci_mgr_std sim_pci 9 0x05 0 1 0 7 (cfg_of_bytes low_ptr_bytes)
      = some { ret := -1, p_offset := 7, world := cfg_of_bytes low_ptr_bytes } ∧
    pci_config_ext_cap_ptr_find pci_mgr_std sim_pci.logged 9 0x05 0 1 0 7
        (cfg_of_bytes low_ptr_bytes, [])
      = some { ret := -1, p_offset := 7,
               world := (cfg_of_bytes low_ptr_bytes,
                 [pci_txn.read 0 { bus := 0, device := 1, func := 0, reg := 1, offset := 2 } 2,
                  pci_txn.read 0 { bus := 0, device := 1, func := 0, reg := 13, offset := 0 } 1]) } :=
  ⟨⟨by decide, by decide⟩,
    ext_cap_ptr_find_low_ptr pci_mgr_std sim_pci 9 0x05 0 1 0 7 (cfg_of_bytes low_ptr_bytes)
      (by decide) (by decide)⟩

/-- C5: on the simulated primitive that stores and retrieves by address
descriptor, a long write of `V` followed by a long read of the same bus,
device, function and offset leaves `V` in `*data`. -/
theorem out_long_in_long_round_trip (H : pci_mgr) (mem : pci_addr_reg → Nat)
    (bus_no device_no func_no offset V : Nat) :
    (pci_config_in_long H sim_pci bus_no device_no func_no offset
      (pci_config_out_long H sim_pci bus_no device_no func_no offset V mem)).1 = V := by
  simp [pci_config_in_long, pci_config_out_long, sim_pci]

/-- C5 at the claim's tuple: bus 0, device 1, function 0, offset `0x10`. -/
theorem out_long_in_long_round_trip_witness :
    (pci_config_in_long pci_mgr_std sim_pci 0 1 0 0x10
      (pci_config_out_long pci_mgr_std sim_pci 0 1 0 0x10 0xDEADBEEF
        (cfg_of_bytes example_bytes))).1 = 0xDEADBEEF :=
  out_long_in_long_round_trip pci_mgr_std (cfg_of_bytes example_bytes) 0 1 0 0x10 0xDEADBEEF

/-! The descriptor and the transaction of each accessor. -/

theorem bitfield_of_lt (w v : Nat) (h : v < 2 ^ w) : bitfield w v = v :=
  Nat.mod_eq_of_lt h

theorem bitfield_zero (w : Nat) : bitfield w 0 = 0 :=
  Nat.zero_mod _

theorem four_le_two_pow (w : Nat) (h : 2 ≤ w) : 4 ≤ 2 ^ w :=
  Nat.pow_le_pow_right (Nat.succ_pos 1) h

theorem bitfield_mod_four (w o : Nat) (h : 2 ≤ w) : bitfield w (o % 4) = o % 4 :=
  bitfield_of_lt w (o % 4)
    (Nat.lt_of_lt_of_le (Nat.mod_lt o (by decide)) (four_le_two_pow w h))

theorem bitfield_and_two (w o : Nat) (h : 2 ≤ w) : bitfield w (o &&& 2) = o &&& 2 :=
  bitfield_of_lt w (o &&& 2)
    (Nat.lt_of_lt_of_le (Nat.lt_succ_of_le Nat.and_le_right)
      (Nat.le_trans (by decide) (four_le_two_pow w h)))

/-- A register field narrower than 10 bits does not hold every quotient up to
`4095 / 4`: with the 6-bit field of `pci_mgr_std` the byte read at offset 256
hands the primitive register index 0, not `256 / 4 = 64`. -/
theorem descriptor_reg_wraps_at_256 :
    256 ≤ 4095 ∧
    ((pci_config_in_byte pci_mgr_std sim_pci.logged 0 0 0 256 (fun _ => 0, [])).2.2.map
      fun t => t.addr.reg) = [0] ∧
    ((pci_config_in_byte pci_mgr_std sim_pci.logged 0 0 0 256 (fun _ => 0, [])).2.2.map
      fun t => t.addr.reg) ≠ [256 / 4] := by
  decide

/-- The register index and lane of each accessor, in general: for every offset
whose quotient by 4 fits the register field of the descriptor, and a lane
field at least 2 bits wide, the descriptor each of the six accessors hands to
the raw primitive has register index `offset / 4`, and lane `offset % 4` for
the byte accessors, `offset & 2` for the word accessors and 0 for the long
accessors. -/
theorem descriptor_reg_and_lane {σ : Type} (H : pci_mgr) (P : raw_pci σ) (s : σ)
    (bus_no device_no func_no offset data : Nat)
    (hreg : offset / 4 < 2 ^ H.reg_bits) (hlane : 2 ≤ H.offset_bits) :
    ((pci_config_out_long H P.logged bus_no device_no func_no offset data (s, [])).2.map
      fun t => (t.addr.reg, t.addr.offset)) = [(offset / 4, 0)] ∧
    ((pci_config_out_word H P.logged bus_no device_no func_no offset data (s, [])).2.map
      fun t => (t.addr.reg, t.addr.offset)) = [(offset / 4, offset &&& 2)] ∧
    ((pci_config_out_byte H P.logged bus_no device_no func_no offset data (s, [])).2.map
      fun t => (t.addr.reg, t.addr.offset)) = [(offset / 4, offset % 4)] ∧
    ((pci_config_in_long H P.logged bus_no device_no func_no offset (s, [])).2.2.map
      fun t => (t.addr.reg, t.addr.offset)) = [(offset / 4, 0)] ∧
    ((pci_config_in_word H P.logged bus_no device_no func_no offset (s, [])).2.2.map
      fun t => (t.addr.reg, t.addr.offset)) = [(offset / 4, offset &&& 2)] ∧
    ((pci_config_in_byte H P.logged bus_no device_no func_no offset (s, [])).2.2.map
      fun t => (t.addr.reg, t.addr.offset)) = [(offset / 4, offset % 4)] := by
  have hr := bitfield_of_lt H.reg_bits (offset / 4) hreg
  have h0 := bitfield_zero H.offset_bits
  have h2 := bitfield_and_two H.offset_bits offset hlane
  have h4 := bitfield_mod_four H.offset_bits offset hlane
  refine ⟨?_, ?_, ?_, ?_, ?_, ?_⟩
  · simp [pci_config_out_long, raw_pci.logged, pci_txn.addr, hr, h0]
  · simp [pci_config_out_word, raw_pci.logged, pci_txn.addr, hr, h2]
  · simp [pci_config_out_byte, raw_pci.logged, pci_txn.addr, hr, h4]
  · simp [pci_config_in_long, raw_pci.logged, pci_txn.addr, hr, h0]
  · simp [pci_config_in_word, raw_pci.logged, pci_txn.addr, hr, h2]
  · simp [pci_config_in_byte, raw_pci.logged, pci_txn.addr, hr, h4]

/-- The register index and lane at offset 255 with the 6-bit register field
and 2-bit lane field of `pci_mgr_std`: register 63, lanes 0, 2 and 3. -/
theorem descriptor_reg_and_lane_witness :
    (255 / 4 < 2 ^ pci_mgr_std.reg_bits ∧ 2 ≤ pci_mgr_std.offset_bits) ∧
    ((pci_config_out_long pci_mgr_std sim_pci.logged 0 1 0 255 9 (fun _ => 0, [])).2.map
      fun t => (t.addr.reg, t.addr.offset)) = [(255 / 4, 0)] ∧
    ((pci_config_out_word pci_mgr_std sim_pci.logged 0 1 0 255 9 (fun _ => 0, [])).2.map
      fun t => (t.addr.reg, t.addr.offset)) = [(255 / 4, 255 &&& 2)] ∧
    ((pci_config_out_byte pci_mgr_std sim_pci.logged 0 1 0 255 9 (fun _ => 0, [])).2.map
      fun t => (t.addr.reg, t.addr.offset)) = [(255 / 4, 255 % 4)] ∧
    ((pci_config_in_long pci_mgr_std sim_pci.logged 0 1 0 255 (fun _ => 0, [])).2.2.map
      fun t => (t.addr.reg, t.addr.offset)) = [(255 / 4, 0)] ∧
    ((pci_config_in_word pci_mgr_std sim_pci.logged 0 1 0 255 (fun _ => 0, [])).2.2.map
      fun t => (t.addr.reg, t.addr.offset)) = [(255 / 4, 255 &&& 2)] ∧
    ((pci_config_in_byte pci_mgr_std sim_pci.logged 0 1 0 255 (fun _ => 0, [])).2.2.map
      fun t => (t.addr.reg, t.addr.offset)) = [(255 / 4, 255 % 4)] :=
  ⟨⟨by decide, by decide⟩,
    descriptor_reg_and_lane pci_mgr_std sim_pci (fun _ => 0) 0 1 0 255 9 (by decide) (by decide)⟩

/-- C7: whatever 32-bit value the raw read primitive places in the scratch
word, `pci_config_in_word` leaves its low 16 bits in `*data` and
`pci_config_in_byte` its low 8 bits, for every bus, device, function, offset,
primitive and hardware state. -/
theorem in_word_in_byte_truncate {σ : Type} (H : pci_mgr) (P : raw_pci σ) (s : σ)
    (bus_no device_no func_no offset : Nat) :
    (pci_config_in_word H P bus_no device_no func_no offset s).1
      = (P.pci_read H.DEFAULT_PCI_CONTROLLER
          { bus := bitfield H.bus_bits bus_no
            device := bitfield H.device_bits device_no
            func := bitfield H.func_bits func_no
            reg := bitfield H.reg_bits (offset / 4)
            offset := bitfield H.offset_bits (offset &&& 2) } 2 s).1 % 2 ^ 16 ∧
    (pci_config_in_byte H P bus_no device_no func_no offset s).1
      = (P.pci_read H.DEFAULT_PCI_CONTROLLER
          { bus := bitfield H.bus_bits bus_no
            device := bitfield H.device_bits device_no
            func := bitfield H.func_bits func_no
            reg := bitfield H.reg_bits (offset / 4)
            offset := bitfield H.offset_bits (offset % 4) } 1 s).1 % 2 ^ 8 :=
  ⟨rfl, rfl⟩

/-- C7 at the claim's offsets, the primitive returning `0xDEADBEEF`
everywhere: the word read at `0x06` leaves `0xBEEF`, the byte read at `0x07`
leaves `0xEF` and is issued on lane 3 of register 1. -/
theorem in_word_in_byte_truncate_witness :
    (pci_config_in_word pci_mgr_std sim_pci 0 1 0 0x06 (fun _ => 0xDEADBEEF)).1 = 0xBEEF ∧
    (pci_config_in_byte pci_mgr_std sim_pci 0 1 0 0x07 (fun _ => 0xDEADBEEF)).1 = 0xEF ∧
    (pci_config_in_byte pci_mgr_std sim_pci.logged 0 1 0 0x07 (fun _ => 0xDEADBEEF, [])).2.2
      = [pci_txn.read 0 { bus := 0, device := 1, func := 0, reg := 1, offset := 3 } 1] :=
  ⟨(in_word_in_byte_truncate pci_mgr_std sim_pci (fun _ => 0xDEADBEEF) 0 1 0 0x06).1.trans
      (by decide),
    (in_word_in_byte_truncate pci_mgr_std sim_pci (fun _ => 0xDEADBEEF) 0 1 0 0x07).2.trans
      (by decide),
    by decide⟩

/-- C8: on any primitives and from any hardware state and log, each of the six
accessors adds exactly one transaction to the log, on
`DEFAULT_PCI_CONTROLLER`; it is a write of width 4, 2, 1 carrying the caller's
data unchanged for the long, word, byte write accessors, and a read of width
4, 2, 1 for the long, word, byte read accessors. -/
theorem accessor_single_transaction {σ : Type} (H : pci_mgr) (P : raw_pci σ) (s : σ)
    (log : List pci_txn) (bus_no device_no func_no offset data : Nat) :
    (∃ a, (pci_config_out_long H P.logged bus_no device_no func_no offset data (s, log)).2
      = log ++ [pci_txn.write H.DEFAULT_PCI_CONTROLLER a 4 data]) ∧
    (∃ a, (pci_config_out_word H P.logged bus_no device_no func_no offset data (s, log)).2
      = log ++ [pci_txn.write H.DEFAULT_PCI_CONTROLLER a 2 data]) ∧
    (∃ a, (pci_config_out_byte H P.logged bus_no device_no func_no offset data (s, log)).2
      = log ++ [pci_txn.write H.DEFAULT_PCI_CONTROLLER a 1 data]) ∧
    (∃ a, (pci_config_in_long H P.logged bus_no device_no func_no offset (s, log)).2.2
      = log ++ [pci_txn.read H.DEFAULT_PCI_CONTROLLER a 4]) ∧
    (∃ a, (pci_config_in_word H P.logged bus_no device_no func_no offset (s, log)).2.2
      = log ++ [pci_txn.read H.DEFAULT_PCI_CONTROLLER a 2]) ∧
    (∃ a, (pci_config_in_byte H P.logged bus_no device_no func_no offset (s, log)).2.2
      = log ++ [pci_txn.read H.DEFAULT_PCI_CONTROLLER a 1]) :=
  ⟨⟨_, rfl⟩, ⟨_, rfl⟩, ⟨_, rfl⟩, ⟨_, rfl⟩, ⟨_, rfl⟩, ⟨_, rfl⟩⟩

/-- C9, as stated, fails: with the 8-, 5- and 3-bit bus, device and function
fields, the out-of-range arguments `bus_no = 256`, `device_no = 32`,
`func_no = 8` reach the raw primitive as bus 0, device 0, function 0, from the
byte write accessor and from the long read accessor alike. -/
theorem descriptor_fields_out_of_range :
    ((pci_config_out_byte pci_mgr_std sim_pci.logged 256 32 8 0 0 (fun _ => 0, [])).2.map
      fun t => (t.addr.bus, t.addr.device, t.addr.func)) = [(0, 0, 0)] ∧
    ((pci_config_out_byte pci_mgr_std sim_pci.logged 256 32 8 0 0 (fun _ => 0, [])).2.map
      fun t => (t.addr.bus, t.addr.device, t.addr.func)) ≠ [(256, 32, 8)] ∧
    ((pci_config_in_long pci_mgr_std sim_pci.logged 256 32 8 0 (fun _ => 0, [])).2.2.map
      fun t => (t.addr.bus, t.addr.device, t.addr.func)) = [(0, 0, 0)] ∧
    ((pci_config_in_long pci_mgr_std sim_pci.logged 256 32 8 0 (fun _ => 0, [])).2.2.map
      fun t => (t.addr.bus, t.addr.device, t.addr.func)) ≠ [(256, 32, 8)] := by
  decide

/-- No descriptor whose bus, device and function fields share a 32-bit word
forwards every 32-bit argument as given: some field is narrower than 32 bits,
and the argument `2 ^ width` of that field reaches the primitive as 0. -/
theorem descriptor_fields_cannot_forward_all (H : pci_mgr)
    (hword : H.bus_bits + H.device_bits + H.func_bits ≤ 32) :
    ∃ bus_no device_no func_no, bus_no < 2 ^ 32 ∧ device_no < 2 ^ 32 ∧ func_no < 2 ^ 32 ∧
      ((pci_config_out_byte H sim_pci.logged bus_no device_no func_no 0 0 (fun _ => 0, [])).2.map
        fun t => (t.addr.bus, t.addr.device, t.addr.func)) ≠ [(bus_no, device_no, func_no)] := by
  by_cases hb : H.bus_bits < 32
  · refine ⟨2 ^ H.bus_bits, 0, 0, Nat.pow_lt_pow_right (by decide) hb, by decide, by decide, ?_⟩
    have hpos : 0 < 2 ^ H.bus_bits := Nat.pos_pow_of_pos _ (by decide)
    intro h
    have hbus : (2 ^ H.bus_bits) % 2 ^ H.bus_bits = 2 ^ H.bus_bits :=
      congrArg Prod.fst (List.cons.inj h).1
    rw [Nat.mod_self] at hbus
    omega
  · have hd : H.device_bits = 0 := by omega
    refine ⟨0, 1, 0, by decide, by decide, by decide, ?_⟩
    intro h
    have hdev : 1 % 2 ^ H.device_bits = 1 :=
      congrArg (fun x => x.2.1) (List.cons.inj h).1
    rw [hd] at hdev
    exact absurd hdev (by decide)

/-- C9, amended: no accessor rejects a call, whatever `bus_no`, `device_no` and
`func_no` are: each issues its one transaction, and the bus, device and
function fields of the descriptor it hands to the raw primitive are the
arguments reduced modulo `2 ^ width` of their fields; they are the arguments as
given whenever each argument is below `2 ^ width` of its field. -/
theorem descriptor_bus_device_func {σ : Type} (H : pci_mgr) (P : raw_pci σ) (s : σ)
    (bus_no device_no func_no offset data : Nat) :
    (((pci_config_out_long H P.logged bus_no device_no func_no offset data (s, [])).2.map
        fun t => (t.addr.bus, t.addr.device, t.addr.func))
        = [(bus_no % 2 ^ H.bus_bits, device_no % 2 ^ H.device_bits, func_no % 2 ^ H.func_bits)] ∧
      ((pci_config_out_word H P.logged bus_no device_no func_no offset data (s, [])).2.map
        fun t => (t.addr.bus, t.addr.device, t.addr.func))
        = [(bus_no % 2 ^ H.bus_bits, device_no % 2 ^ H.device_bits, func_no % 2 ^ H.func_bits)] ∧
      ((pci_config_out_byte H P.logged bus_no device_no func_no offset data (s, [])).2.map
        fun t => (t.addr.bus, t.addr.device, t.addr.func))
        = [(bus_no % 2 ^ H.bus_bits, device_no % 2 ^ H.device_bits, func_no % 2 ^ H.func_bits)] ∧
      ((pci_config_in_long H P.logged bus_no device_no func_no offset (s, [])).2.2.map
        fun t => (t.addr.bus, t.addr.device, t.addr.func))
        = [(bus_no % 2 ^ H.bus_bits, device_no % 2 ^ H.device_bits, func_no % 2 ^ H.func_bits)] ∧
      ((pci_config_in_word H P.logged bus_no device_no func_no offset (s, [])).2.2.map
        fun t => (t.addr.bus, t.addr.device, t.addr.func))
        = [(bus_no % 2 ^ H.bus_bits, device_no % 2 ^ H.device_bits, func_no % 2 ^ H.func_bits)] ∧
      ((pci_config_in_byte H P.logged bus_no device_no func_no offset (s, [])).2.2.map
        fun t => (t.addr.bus, t.addr.device, t.addr.func))
        = [(bus_no % 2 ^ H.bus_bits, device_no % 2 ^ H.device_bits, func_no % 2 ^ H.func_bits)]) ∧
    (bus_no < 2 ^ H.bus_bits → device_no < 2 ^ H.device_bits → func_no < 2 ^ H.func_bits →
      ((pci_config_out_long H P.logged bus_no device_no func_no offset data (s, [])).2.map
        fun t => (t.addr.bus, t.addr.device, t.addr.func)) = [(bus_no, device_no, func_no)] ∧
      ((pci_config_out_word H P.logged bus_no device_no func_no offset data (s, [])).2.map
        fun t => (t.addr.bus, t.addr.device, t.addr.func)) = [(bus_no, device_no, func_no)] ∧
      ((pci_config_out_byte H P.logged bus_no device_no func_no offset data (s, [])).2.map
        fun t => (t.addr.bus, t.addr.device, t.addr.func)) = [(bus_no, device_no, func_no)] ∧
      ((pci_config_in_long H P.logged bus_no device_no func_no offset (s, [])).2.2.map
        fun t => (t.addr.bus, t.addr.device, t.addr.func)) = [(bus_no, device_no, func_no)] ∧
      ((pci_config_in_word H P.logged bus_no device_no func_no offset (s, [])).2.2.map
        fun t => (t.addr.bus, t.addr.device, t.addr.func)) = [(bus_no, device_no, func_no)] ∧
      ((pci_config_in_byte H P.logged bus_no device_no func_no offset (s, [])).2.2.map
        fun t => (t.addr.bus, t.addr.device, t.addr.func)) = [(bus_no, device_no, func_no)]) := by
  refine ⟨⟨rfl, rfl, rfl, rfl, rfl, rfl⟩, fun hb hd hf => ?_⟩
  have h1 := bitfield_of_lt H.bus_bits bus_no hb
  have h2 := bitfield_of_lt H.device_bits device_no hd
  have h3 := bitfield_of_lt H.func_bits func_no hf
  refine ⟨?_, ?_, ?_, ?_, ?_, ?_⟩
  · simp [pci_config_out_long, raw_pci.logged, pci_txn.addr, h1, h2, h3]
  · simp [pci_config_out_word, raw_pci.logged, pci_txn.addr, h1, h2, h3]
  · simp [pci_config_out_byte, raw_pci.logged, pci_txn.addr, h1, h2, h3]
  · simp [pci_config_in_long, raw_pci.logged, pci_txn.addr, h1, h2, h3]
  · simp [pci_config_in_word, raw_pci.logged, pci_txn.addr, h1, h2, h3]
  · simp [pci_config_in_byte, raw_pci.logged, pci_txn.addr, h1, h2, h3]

/-- C9, amended, at the largest arguments that fit the 8-, 5- and 3-bit
fields: bus 255, device 31, function 7 reach the primitive as given, from the
byte write accessor and the long read accessor. -/
theorem descriptor_bus_device_func_witness :
    (255 < 2 ^ pci_mgr_std.bus_bits ∧ 31 < 2 ^ pci_mgr_std.device_bits ∧
      7 < 2 ^ pci_mgr_std.func_bits) ∧
    ((pci_config_out_byte pci_mgr_std sim_pci.logged 255 31 7 0x10 9 (fun _ => 0, [])).2.map
      fun t => (t.addr.bus, t.addr.device, t.addr.func)) = [(255, 31, 7)] ∧
    ((pci_config_in_long pci_mgr_std sim_pci.logged 255 31 7 0x10 (fun _ => 0, [])).2.2.map
      fun t => (t.addr.bus, t.addr.device, t.addr.func)) = [(255, 31, 7)] :=
  ⟨⟨by decide, by decide, by decide⟩,
    ((descriptor_bus_device_func pci_mgr_std sim_pci (fun _ => 0) 255 31 7 0x10 9).2
      (by decide) (by decide) (by decide)).2.2.1,
    ((descriptor_bus_device_func pci_mgr_std sim_pci (fun _ => 0) 255 31 7 0x10 9).2
      (by decide) (by decide) (by decide)).2.2.2.1⟩

/-! Lists that never end. -/

theorem cap_walk_add (H : pci_mgr) (mem : pci_addr_reg → Nat) (bus device function : Nat)
    (a m : Nat) : ∀ c : Nat,
    cap_walk H mem bus device function c (a + m)
      = cap_walk H mem bus device function (cap_walk H mem bus device function c a) m := by
  induction a with
  | zero =>
    intro c
    rw [Nat.zero_add]
    rfl
  | succ a ih =>
    intro c
    rw [Nat.succ_add, cap_walk_succ, cap_walk_succ]
    exact ih _

theorem cap_chain_add (H : pci_mgr) (mem : pci_addr_reg → Nat) (bus device function : Nat)
    (a m : Nat) :
    cap_chain H mem bus device function (a + m)
      = cap_walk H mem bus device function (cap_chain H mem bus device function a) m :=
  cap_walk_add H mem bus device function a m _

/-- A chain that re-enters the offset it had at index `i` when it is at a later
index `j` only ever visits the offsets of its first `j` indices. -/
theorem cap_chain_cycle_range (H : pci_mgr) (mem : pci_addr_reg → Nat)
    (bus device function i j : Nat) (hij : i < j)
    (hcyc : cap_chain H mem bus device function i = cap_chain H mem bus device function j)
    (n : Nat) :
    ∃ k, k < j ∧ cap_chain H mem bus device function n = cap_chain H mem bus device function k := by
  induction n using Nat.strong_induction_on with
  | _ n ih =>
    by_cases hn : n < j
    · exact ⟨n, hn, rfl⟩
    · have hsplit : n = j + (n - j) := by omega
      have hback : cap_chain H mem bus device function n
          = cap_chain H mem bus device function (i + (n - j)) := by
        rw [cap_chain_add H mem bus device function i (n - j), hcyc,
          ← cap_chain_add H mem bus device function j (n - j), ← hsplit]
      rcases ih (i + (n - j)) (by omega) with ⟨k, hk, hk2⟩
      exact ⟨k, hk, hback.trans hk2⟩

/-- A chain with a cycle among its first `j` indices, none of which is offset
zero or carries the wanted ID, never reaches zero and never carries the ID. -/
theorem cap_chain_of_cycle (H : pci_mgr) (mem : pci_addr_reg → Nat)
    (id bus device function i j : Nat) (hij : i < j)
    (hcyc : cap_chain H mem bus device function i = cap_chain H mem bus device function j)
    (hgood : ∀ k, k < j → cap_chain H mem bus device function k ≠ 0 ∧
      cfg_byte H mem bus device function (cap_chain H mem bus device function k) ≠ id) :
    (∀ n, cap_chain H mem bus device function n ≠ 0) ∧
    (∀ n, cfg_byte H mem bus device function (cap_chain H mem bus device function n) ≠ id) := by
  constructor
  · intro n
    rcases cap_chain_cycle_range H mem bus device function i j hij hcyc n with ⟨k, hk, hk2⟩
    rw [hk2]
    exact (hgood k hk).1
  · intro n
    rcases cap_chain_cycle_range H mem bus device function i j hij hcyc n with ⟨k, hk, hk2⟩
    rw [hk2]
    exact (hgood k hk).2

/-- C10: on a simulated configuration space with the new-capabilities bit set
and a masked initial pointer of at least `0x40`, whose chain never reaches
`0x00` and none of whose nodes carries the wanted ID, the search never
returns: for every `n` the loop is still running after `n` passes, at the
`n`-th offset of the chain, with `*p_offset` and the configuration space
untouched, and no amount of fuel yields a result. -/
theorem ext_cap_ptr_find_loops_forever (H : pci_mgr) (mem : pci_addr_reg → Nat)
    (id bus device function p : Nat)
    (hstat : cfg_status H mem bus device function &&& H.PCI_STATUS_NEW_CAP ≠ 0)
    (hptr : 0x40 ≤ cap_chain H mem bus device function 0)
    (hnz : ∀ n, cap_chain H mem bus device function n ≠ 0)
    (hid : ∀ n, cfg_byte H mem bus device function
      (cap_chain H mem bus device function n) ≠ id) :
    ∀ n,
      pci_config_ext_cap_ptr_find_run H sim_pci n id bus device function p mem
        = .running (cap_chain H mem bus device function n) p mem ∧
      pci_config_ext_cap_ptr_find H sim_pci n id bus device function p mem = none := by
  intro n
  rcases find_sim_cases H mem id bus device function p n hstat hptr with
    ⟨-, hrun, hnone⟩ | ⟨m, -, -, hz, -⟩ | ⟨m, -, -, -, hm, -⟩
  · exact ⟨hrun, hnone⟩
  · exact absurd hz (hnz m)
  · exact absurd hm (hid m)

/-- C10 at the self-cycle `0x40 -> 0x40`, looking up ID `0x05`: the loop is
running at offset `0x40` after every number of passes. -/
theorem ext_cap_ptr_find_loops_forever_witness :
    (cfg_status pci_mgr_std (cfg_of_bytes self_cycle_bytes) 0 1 0
        &&& pci_mgr_std.PCI_STATUS_NEW_CAP ≠ 0 ∧
      0x40 ≤ cap_chain pci_mgr_std (cfg_of_bytes self_cycle_bytes) 0 1 0 0 ∧
      cap_chain pci_mgr_std (cfg_of_bytes self_cycle_bytes) 0 1 0 0
        = cap_chain pci_mgr_std (cfg_of_bytes self_cycle_bytes) 0 1 0 1) ∧
    ∀ n,
      pci_config_ext_cap_ptr_find_run pci_mgr_std sim_pci n 0x05 0 1 0 7
          (cfg_of_bytes self_cycle_bytes)
        = .running (cap_chain pci_mgr_std (cfg_of_bytes self_cycle_bytes) 0 1 0 n) 7
            (cfg_of_bytes self_cycle_bytes) ∧
      pci_config_ext_cap_ptr_find pci_mgr_std sim_pci n 0x05 0 1 0 7
          (cfg_of_bytes self_cycle_bytes) = none :=
  ⟨⟨by decide, by decide, by decide⟩,
    ext_cap_ptr_find_loops_forever pci_mgr_std (cfg_of_bytes self_cycle_bytes) 0x05 0 1 0 7
      (by decide) (by decide)
      (cap_chain_of_cycle pci_mgr_std (cfg_of_bytes self_cycle_bytes) 0x05 0 1 0 0 1
        (by decide) (by decide) (by decide)).1
      (cap_chain_of_cycle pci_mgr_std (cfg_of_bytes self_cycle_bytes) 0x05 0 1 0 0 1
        (by decide) (by decide) (by decide)).2⟩

/-! Forward lemmas on the simulated configuration space, and the self-cycle. -/

/-- A chain whose first zero offset is at index `m`, with no match before: the
search returns -1 with any fuel above `m`. -/
theorem find_sim_miss (H : pci_mgr) (mem : pci_addr_reg → Nat)
    (id bus device function p m : Nat)
    (hstat : cfg_status H mem bus device function &&& H.PCI_STATUS_NEW_CAP ≠ 0)
    (hptr : 0x40 ≤ cap_chain H mem bus device function 0)
    (hgood : ∀ j, j < m → cap_chain H mem bus device function j ≠ 0 ∧
      cfg_byte H mem bus device function (cap_chain H mem bus device function j) ≠ id)
    (hz : cap_chain H mem bus device function m = 0) (fuel : Nat) (hfuel : m < fuel) :
    pci_config_ext_cap_ptr_find H sim_pci fuel id bus device function p mem
      = some { ret := -1, p_offset := p, world := mem } := by
  rcases find_sim_cases H mem id bus device function p fuel hstat hptr with
    ⟨hg, -, -⟩ | ⟨k, -, -, -, hr⟩ | ⟨k, -, hg, hnz, hk, -⟩
  · exact absurd hz (hg m hfuel).1
  · exact hr
  · rcases Nat.lt_trichotomy k m with hlt | heq | hgt
    · exact absurd hk (hgood k hlt).2
    · exact absurd (heq ▸ hz) hnz
    · exact absurd hz (hg m hgt).1

/-- A chain whose first match is at index `k`, with no zero offset up to
there: the search returns 0 and that offset with any fuel above `k`. -/
theorem find_sim_hit (H : pci_mgr) (mem : pci_addr_reg → Nat)
    (id bus device function p k : Nat)
    (hstat : cfg_status H mem bus device function &&& H.PCI_STATUS_NEW_CAP ≠ 0)
    (hptr : 0x40 ≤ cap_chain H mem bus device function 0)
    (hgood : ∀ j, j < k → cap_chain H mem bus device function j ≠ 0 ∧
      cfg_byte H mem bus device function (cap_chain H mem bus device function j) ≠ id)
    (hnz : cap_chain H mem bus device function k ≠ 0)
    (hk : cfg_byte H mem bus device function (cap_chain H mem bus device function k) = id)
    (fuel : Nat) (hfuel : k < fuel) :
    pci_config_ext_cap_ptr_find H sim_pci fuel id bus device function p mem
      = some { ret := 0, p_offset := cap_chain H mem bus device function k, world := mem } := by
  rcases find_sim_cases H mem id bus device function p fuel hstat hptr with
    ⟨hg, -, -⟩ | ⟨m, -, hg, hz, -⟩ | ⟨m, -, hg, -, hm, hr⟩
  · exact absurd hk (hg k hfuel).2
  · rcases Nat.lt_trichotomy m k with hlt | heq | hgt
    · exact absurd hz (hgood m hlt).1
    · exact absurd (heq ▸ hz) hnz
    · exact absurd hk (hg k hgt).2
  · rcases Nat.lt_trichotomy m k with hlt | heq | hgt
    · exact absurd hm (hgood m hlt).2
    · rw [← heq]; exact hr
    · exact absurd hk (hg k hgt).2

/-- A chain that never reaches zero and never carries the ID keeps the search
in its loop. -/
theorem find_sim_running (H : pci_mgr) (mem : pci_addr_reg → Nat)
    (id bus device function p : Nat)
    (hstat : cfg_status H mem bus device function &&& H.PCI_STATUS_NEW_CAP ≠ 0)
    (hptr : 0x40 ≤ cap_chain H mem bus device function 0)
    (hall : (∀ n, cap_chain H mem bus device function n ≠ 0) ∧
      (∀ n, cfg_byte H mem bus device function
        (cap_chain H mem bus device function n) ≠ id)) (n : Nat) :
    pci_config_ext_cap_ptr_find_run H sim_pci n id bus device function p mem
        = .running (cap_chain H mem bus device function n) p mem ∧
      pci_config_ext_cap_ptr_find H sim_pci n id bus device function p mem = none := by
  rcases find_sim_cases H mem id bus device function p n hstat hptr with
    ⟨-, hrun, hnone⟩ | ⟨m, -, -, hz, -⟩ | ⟨m, -, -, -, hm, -⟩
  · exact ⟨hrun, hnone⟩
  · exact absurd hz (hall.1 m)
  · exact absurd hm (hall.2 m)

/-- Every offset of a chain that starts at a node pointing to itself is that
node. -/
theorem cap_walk_self (H : pci_mgr) (mem : pci_addr_reg → Nat) (bus device function c : Nat)
    (hself : cfg_byte H mem bus device function ((c + 1) % 2 ^ 8) = c) (n : Nat) :
    cap_walk H mem bus device function c n = c := by
  induction n with
  | zero => rfl
  | succ n ih => rw [cap_walk_succ, hself, ih]

/-- C11, as stated, fails: on the self-cycle `0x40 -> 0x40` with the bit set
and CAP_PTR `0x40`, looking up `0x05`, the search has not returned after 256
passes through the loop: it is still running at offset `0x40`. -/
theorem ext_cap_ptr_find_self_cycle_256 :
    pci_config_ext_cap_ptr_find_run pci_mgr_std sim_pci 256 0x05 0 1 0 7
        (cfg_of_bytes self_cycle_bytes)
      = .running 0x40 7 (cfg_of_bytes self_cycle_bytes) ∧
    pci_config_ext_cap_ptr_find pci_mgr_std sim_pci 256 0x05 0 1 0 7
        (cfg_of_bytes self_cycle_bytes) = none := by
  have h := find_sim_running pci_mgr_std (cfg_of_bytes self_cycle_bytes) 0x05 0 1 0 7
    (by decide) (by decide)
    (cap_chain_of_cycle pci_mgr_std (cfg_of_bytes self_cycle_bytes) 0x05 0 1 0 0 1
      (by decide) (by decide) (by decide)) 256
  have e : cap_chain pci_mgr_std (cfg_of_bytes self_cycle_bytes) 0 1 0 256 = 0x40 :=
    cap_walk_self pci_mgr_std (cfg_of_bytes self_cycle_bytes) 0 1 0 0x40 (by decide) 256
  rw [e] at h
  exact h

/-- C11, amended: on a simulated configuration space with the
new-capabilities bit set, CAP_PTR `0x40`, and a node at `0x40` whose ID differs
from the wanted one and whose next-pointer is `0x40` itself, the search never
returns: after every number of passes, 256 included, the loop is still running
at offset `0x40`, and no amount of fuel yields a result. -/
theorem ext_cap_ptr_find_self_cycle (H : pci_mgr) (mem : pci_addr_reg → Nat)
    (id bus device function p : Nat)
    (hstat : cfg_status H mem bus device function &&& H.PCI_STATUS_NEW_CAP ≠ 0)
    (hcap : cfg_byte H mem bus device function H.PCI_CFG_CAP_PTR = 0x40)
    (hid : cfg_byte H mem bus device function 0x40 ≠ id)
    (hnext : cfg_byte H mem bus device function 0x41 = 0x40) :
    ∀ n,
      pci_config_ext_cap_ptr_find_run H sim_pci n id bus device function p mem
        = .running 0x40 p mem ∧
      pci_config_ext_cap_ptr_find H sim_pci n id bus device function p mem = none := by
  have h0 : cap_chain H mem bus device function 0 = 0x40 := by
    show cfg_byte H mem bus device function H.PCI_CFG_CAP_PTR &&& 0xFD = 0x40
    rw [hcap]
    decide
  have hch : ∀ n, cap_chain H mem bus device function n = 0x40 := by
    intro n
    rw [← cap_chain_eq_walk, h0]
    exact cap_walk_self H mem bus device function 0x40 hnext n
  intro n
  have h := find_sim_running H mem id bus device function p hstat (by rw [h0])
    ⟨fun k => by rw [hch k]; decide, fun k => by rw [hch k]; exact hid⟩ n
  rw [hch n] at h
  exact h

/-- C11, amended, at the self-cycle fixture, looking up `0x05`. -/
theorem ext_cap_ptr_find_self_cycle_witness :
    (cfg_status pci_mgr_std (cfg_of_bytes self_cycle_bytes) 0 1 0
        &&& pci_mgr_std.PCI_STATUS_NEW_CAP ≠ 0 ∧
      cfg_byte pci_mgr_std (cfg_of_bytes self_cycle_bytes) 0 1 0
        pci_mgr_std.PCI_CFG_CAP_PTR = 0x40 ∧
      cfg_byte pci_mgr_std (cfg_of_bytes self_cycle_bytes) 0 1 0 0x40 ≠ 0x05 ∧
      cfg_byte pci_mgr_std (cfg_of_bytes self_cycle_bytes) 0 1 0 0x41 = 0x40) ∧
    ∀ n,
      pci_config_ext_cap_ptr_find_run pci_mgr_std sim_pci n 0x05 0 1 0 7
          (cfg_of_bytes self_cycle_bytes)
        = .running 0x40 7 (cfg_of_bytes self_cycle_bytes) ∧
      pci_config_ext_cap_ptr_find pci_mgr_std sim_pci n 0x05 0 1 0 7
          (cfg_of_bytes self_cycle_bytes) = none :=
  ⟨⟨by decide, by decide, by decide, by decide⟩,
    ext_cap_ptr_find_self_cycle pci_mgr_std (cfg_of_bytes self_cycle_bytes) 0x05 0 1 0 7
      (by decide) (by decide) (by decide) (by decide)⟩

/-! The transactions of the search. -/

/-- One pass through the loop from a running state, on any primitives. -/
theorem cap_loop_iter_running {σ : Type} (H : pci_mgr) (P : raw_pci σ)
    (id bus device function c p : Nat) (s : σ) :
    cap_loop_iter H P id bus device function (.running c p s)
      = if c = 0 then .returned { ret := -1, p_offset := p, world := s }
        else if (pci_config_in_byte H P bus device function c s).1 = id then
          .returned { ret := 0, p_offset := c,
                      world := (pci_config_in_byte H P bus device function c s).2 }
        else .running
          (pci_config_in_byte H P bus device function ((c + 1) % 2 ^ 8)
            (pci_config_in_byte H P bus device function c s).2).1 p
          (pci_config_in_byte H P bus device function ((c + 1) % 2 ^ 8)
            (pci_config_in_byte H P bus device function c s).2).2 := rfl

/-- One pass through the loop adds only width-1 reads to the log. -/
theorem cap_loop_iter_log {σ : Type} (H : pci_mgr) (P : raw_pci σ)
    (id bus device function : Nat) (st : loop_state (σ × List pci_txn)) :
    ∃ ext, (cap_loop_iter H P.logged id bus device function st).world.2 = st.world.2 ++ ext ∧
      ext.all pci_txn.is_byte_read = true := by
  cases st with
  | returned r => exact ⟨[], (List.append_nil _).symm, rfl⟩
  | running c p s =>
    rw [cap_loop_iter_running]
    by_cases hc : c = 0
    · rw [if_pos hc]
      exact ⟨[], (List.append_nil _).symm, rfl⟩
    · rw [if_neg hc]
      by_cases hid : (pci_config_in_byte H P.logged bus device function c s).1 = id
      · rw [if_pos hid]
        exact ⟨[_], rfl, rfl⟩
      · rw [if_neg hid]
        refine ⟨[pci_txn.read H.DEFAULT_PCI_CONTROLLER
            { bus := bitfield H.bus_bits bus
              device := bitfield H.device_bits device
              func := bitfield H.func_bits function
              reg := bitfield H.reg_bits (c / 4)
              offset := bitfield H.offset_bits (c % 4) } 1,
          pci_txn.read H.DEFAULT_PCI_CONTROLLER
            { bus := bitfield H.bus_bits bus
              device := bitfield H.device_bits device
              func := bitfield H.func_bits function
              reg := bitfield H.reg_bits ((c + 1) % 2 ^ 8 / 4)
              offset := bitfield H.offset_bits ((c + 1) % 2 ^ 8 % 4) } 1], ?_, rfl⟩
        show (s.2 ++ [_]) ++ [_] = s.2 ++ [_, _]
        rw [List.append_assoc]
        rfl

/-- Any number of passes through the loop adds only width-1 reads to the
log. -/
theorem cap_loop_run_log {σ : Type} (H : pci_mgr) (P : raw_pci σ)
    (id bus device function : Nat) (n : Nat) : ∀ st : loop_state (σ × List pci_txn),
    ∃ ext, (cap_loop_run H P.logged id bus device function n st).world.2 = st.world.2 ++ ext ∧
      ext.all pci_txn.is_byte_read = true := by
  induction n with
  | zero =>
    intro st
    exact ⟨[], (List.append_nil _).symm, rfl⟩
  | succ n ih =>
    intro st
    rcases cap_loop_iter_log H P id bus device function st with ⟨e1, h1, a1⟩
    rcases ih (cap_loop_iter H P.logged id bus device function st) with ⟨e2, h2, a2⟩
    refine ⟨e1 ++ e2, ?_, ?_⟩
    · show (cap_loop_run H P.logged id bus device function n
        (cap_loop_iter H P.logged id bus device function st)).world.2 = _
      rw [h2, h1, List.append_assoc]
    · rw [List.all_append, a1, a2]
      rfl

/-- The log of the search, from an empty log and after any number of passes:
the width-2 read of STATUS, then width-1 reads only. -/
theorem find_run_log {σ : Type} (H : pci_mgr) (P : raw_pci σ)
    (n id bus device function p : Nat) (s : σ) :
    ∃ rest,
      (pci_config_ext_cap_ptr_find_run H P.logged n id bus device function p (s, [])).world.2
        = pci_txn.read H.DEFAULT_PCI_CONTROLLER
            { bus := bitfield H.bus_bits bus
              device := bitfield H.device_bits device
              func := bitfield H.func_bits function
              reg := bitfield H.reg_bits (H.PCI_CFG_STATUS / 4)
              offset := bitfield H.offset_bits (H.PCI_CFG_STATUS &&& 2) } 2 :: rest ∧
      rest.all pci_txn.is_byte_read = true := by
  unfold pci_config_ext_cap_ptr_find_run
  by_cases hstat : (pci_config_in_word H P.logged bus device function H.PCI_CFG_STATUS
      (s, [])).1 &&& H.PCI_STATUS_NEW_CAP = 0
  · simp only [if_pos hstat]
    exact ⟨[], rfl, rfl⟩
  · simp only [if_neg hstat]
    by_cases hptr : (pci_config_in_byte H P.logged bus device function H.PCI_CFG_CAP_PTR
        (pci_config_in_word H P.logged bus device function H.PCI_CFG_STATUS (s, [])).2).1
          &&& 0xFD < 0x40
    · simp only [if_pos hptr]
      exact ⟨[_], rfl, rfl⟩
    · simp only [if_neg hptr]
      rcases cap_loop_run_log H P id bus device function n
        (.running ((pci_config_in_byte H P.logged bus device function H.PCI_CFG_CAP_PTR
          (pci_config_in_word H P.logged bus device function H.PCI_CFG_STATUS (s, [])).2).1
            &&& 0xFD) p
          (pci_config_in_byte H P.logged bus device function H.PCI_CFG_CAP_PTR
            (pci_config_in_word H P.logged bus device function H.PCI_CFG_STATUS (s, [])).2).2)
        with ⟨ext, hext, aext⟩
      refine ⟨pci_txn.read H.DEFAULT_PCI_CONTROLLER
            { bus := bitfield H.bus_bits bus
              device := bitfield H.device_bits device
              func := bitfield H.func_bits function
              reg := bitfield H.reg_bits (H.PCI_CFG_CAP_PTR / 4)
              offset := bitfield H.offset_bits (H.PCI_CFG_CAP_PTR % 4) } 1 :: ext, ?_, ?_⟩
      · rw [hext]
        rfl
      · rw [List.all_cons, aext]
        rfl

theorem is_read_of_is_byte_read (t : pci_txn) (h : t.is_byte_read = true) :
    t.is_read = true := by
  unfold pci_txn.is_byte_read at h
  rw [Bool.and_eq_true] at h
  exact h.1

theorem all_is_read_of_all_is_byte_read (l : List pci_txn)
    (h : l.all pci_txn.is_byte_read = true) : l.all pci_txn.is_read = true := by
  rw [List.all_eq_true] at h ⊢
  exact fun t ht => is_read_of_is_byte_read t (h t ht)

/-- One pass through the loop leaves the simulated configuration space as it
was. -/
theorem cap_loop_iter_sim_world (H : pci_mgr) (id bus device function : Nat)
    (st : loop_state (pci_addr_reg → Nat)) :
    (cap_loop_iter H sim_pci id bus device function st).world = st.world := by
  cases st with
  | returned r => rfl
  | running c p mem =>
    rw [cap_loop_iter_sim]
    by_cases hc : c = 0
    · rw [if_pos hc]; rfl
    · rw [if_neg hc]
      by_cases hid : cfg_byte H mem bus device function c = id
      · rw [if_pos hid]; rfl
      · rw [if_neg hid]; rfl

theorem cap_loop_run_sim_world (H : pci_mgr) (id bus device function : Nat) (n : Nat) :
    ∀ st : loop_state (pci_addr_reg → Nat),
      (cap_loop_run H sim_pci id bus device function n st).world = st.world := by
  induction n with
  | zero => intro st; rfl
  | succ n ih =>
    intro st
    show (cap_loop_run H sim_pci id bus device function n
      (cap_loop_iter H sim_pci id bus device function st)).world = _
    rw [ih, cap_loop_iter_sim_world]

/-- C12: the search is read-only.  On any primitives and from any hardware
state, after any number of passes through the loop (any prefix of the
execution, returned or not), every transaction in the log is a read; and on
the simulated configuration space the state after any number of passes is the
state before the call. -/
theorem ext_cap_ptr_find_read_only {σ : Type} (H : pci_mgr) (P : raw_pci σ)
    (n id bus device function p : Nat) (s : σ) (mem : pci_addr_reg → Nat) :
    (pci_config_ext_cap_ptr_find_run H P.logged n id bus device function p
      (s, [])).world.2.all pci_txn.is_read = true ∧
    (pci_config_ext_cap_ptr_find_run H sim_pci n id bus device function p mem).world = mem := by
  constructor
  · rcases find_run_log H P n id bus device function p s with ⟨rest, hlog, hrest⟩
    rw [hlog, List.all_cons, all_is_read_of_all_is_byte_read rest hrest]
    rfl
  · unfold pci_config_ext_cap_ptr_find_run
    by_cases hstat : (pci_config_in_word H sim_pci bus device function H.PCI_CFG_STATUS
        mem).1 &&& H.PCI_STATUS_NEW_CAP = 0
    · simp only [if_pos hstat]
      rfl
    · simp only [if_neg hstat]
      by_cases hptr : (pci_config_in_byte H sim_pci bus device function H.PCI_CFG_CAP_PTR
          (pci_config_in_word H sim_pci bus device function H.PCI_CFG_STATUS mem).2).1
            &&& 0xFD < 0x40
      · simp only [if_pos hptr]
        rfl
      · simp only [if_neg hptr]
        rw [cap_loop_run_sim_world]
        rfl

/-- C12 at the two-node example list, looking up `0x05` with fuel 3: the log
holds five reads and no write. -/
theorem ext_cap_ptr_find_read_only_witness :
    (pci_config_ext_cap_ptr_find_run pci_mgr_std sim_pci.logged 3 0x05 0 1 0 7
      (cfg_of_bytes example_bytes, [])).world.2.all pci_txn.is_read = true ∧
    (pci_config_ext_cap_ptr_find_run pci_mgr_std sim_pci.logged 3 0x05 0 1 0 7
      (cfg_of_bytes example_bytes, [])).world.2.length = 5 ∧
    (pci_config_ext_cap_ptr_find_run pci_mgr_std sim_pci 3 0x05 0 1 0 7
      (cfg_of_bytes example_bytes)).world = cfg_of_bytes example_bytes :=
  ⟨(ext_cap_ptr_find_read_only pci_mgr_std sim_pci 3 0x05 0 1 0 7 (cfg_of_bytes example_bytes)
      (cfg_of_bytes example_bytes)).1,
    by decide,
    (ext_cap_ptr_find_read_only pci_mgr_std sim_pci 3 0x05 0 1 0 7 (cfg_of_bytes example_bytes)
      (cfg_of_bytes example_bytes)).2⟩

/-- C16, as stated, fails: on the two-node example list the first transaction
of the search is the width-2 read of STATUS, so not every transaction is a
width-1 read. -/
theorem ext_cap_ptr_find_first_read_is_word :
    (pci_config_ext_cap_ptr_find_run pci_mgr_std sim_pci.logged 3 0x05 0 1 0 7
      (cfg_of_bytes example_bytes, [])).world.2.head?
      = some (pci_txn.read 0 { bus := 0, device := 1, func := 0, reg := 1, offset := 2 } 2) ∧
    (pci_config_ext_cap_ptr_find_run pci_mgr_std sim_pci.logged 3 0x05 0 1 0 7
      (cfg_of_bytes example_bytes, [])).world.2.all pci_txn.is_byte_read = false := by
  decide

/-- C16, amended: on any primitives and from any hardware state, after any
number of passes through the loop, the transactions of the search are the one
width-2 read of STATUS, made through `pci_config_in_word`, followed by width-1
reads only, made through `pci_config_in_byte`. -/
theorem ext_cap_ptr_find_transactions {σ : Type} (H : pci_mgr) (P : raw_pci σ)
    (n id bus device function p : Nat) (s : σ) :
    ∃ rest,
      (pci_config_ext_cap_ptr_find_run H P.logged n id bus device function p (s, [])).world.2
        = (pci_config_in_word H P.logged bus device function H.PCI_CFG_STATUS (s, [])).2.2
            ++ rest ∧
      (pci_config_in_word H P.logged bus device function H.PCI_CFG_STATUS (s, [])).2.2
        = [pci_txn.read H.DEFAULT_PCI_CONTROLLER
            { bus := bitfield H.bus_bits bus
              device := bitfield H.device_bits device
              func := bitfield H.func_bits function
              reg := bitfield H.reg_bits (H.PCI_CFG_STATUS / 4)
              offset := bitfield H.offset_bits (H.PCI_CFG_STATUS &&& 2) } 2] ∧
      rest.all pci_txn.is_byte_read = true := by
  rcases find_run_log H P n id bus device function p s with ⟨rest, hlog, hrest⟩
  exact ⟨rest, hlog, rfl, hrest⟩

/-! The initial offset and the next-pointer offset. -/

theorem mask_fd_facts (q : Nat) :
    (q &&& 0xFD) &&& 2 = 0 ∧ (q &&& 0xFD) % 2 = q % 2 := by
  constructor
  · rw [Nat.and_assoc]
    exact Nat.and_zero q
  · rw [← Nat.and_one_is_mod, ← Nat.and_one_is_mod, Nat.and_assoc]
    rfl

theorem in_byte_lt {σ : Type} (H : pci_mgr) (P : raw_pci σ)
    (bus device function o : Nat) (s : σ) :
    (pci_config_in_byte H P bus device function o s).1 < 256 :=
  Nat.mod_lt _ (by decide)

/-- C13: the code at the failing input.  With the new-capabilities bit set and
the odd CAP_PTR byte `0x41`, the traversal starts at offset `0x41`
(`0x41 & ~0x02`), which is odd: the mask of line 288 leaves bit 0 alone, so
the initial offset is neither 2-byte aligned, as the claim requires, nor
longword aligned, as the comment of line 285 announces. -/
theorem ext_cap_ptr_find_odd_initial_offset :
    cfg_byte pci_mgr_std (cfg_of_bytes odd_ptr_bytes) 0 1 0 pci_mgr_std.PCI_CFG_CAP_PTR = 0x41 ∧
    pci_config_ext_cap_ptr_find_run pci_mgr_std sim_pci 0 0x05 0 1 0 7
        (cfg_of_bytes odd_ptr_bytes)
      = .running 0x41 7 (cfg_of_bytes odd_ptr_bytes) ∧
    0x41 % 2 = 1 ∧ 0x41 % 4 = 1 :=
  ⟨by decide, rfl, by decide, by decide⟩

/-- The initial offset of the traversal, on any primitives: with the
new-capabilities bit set and the masked CAP_PTR byte at least `0x40`, the loop
is entered at the CAP_PTR byte read with bit 1 cleared (`& 0xFD`); bit 1 of
that offset is clear, and the offset is even whenever the byte read is. -/
theorem ext_cap_ptr_find_initial_offset {σ : Type} (H : pci_mgr) (P : raw_pci σ)
    (id bus device function p : Nat) (s : σ)
    (hstat : (pci_config_in_word H P bus device function H.PCI_CFG_STATUS s).1
      &&& H.PCI_STATUS_NEW_CAP ≠ 0)
    (hptr : 0x40 ≤ (pci_config_in_byte H P bus device function H.PCI_CFG_CAP_PTR
      (pci_config_in_word H P bus device function H.PCI_CFG_STATUS s).2).1 &&& 0xFD) :
    pci_config_ext_cap_ptr_find_run H P 0 id bus device function p s
      = .running
          ((pci_config_in_byte H P bus device function H.PCI_CFG_CAP_PTR
            (pci_config_in_word H P bus device function H.PCI_CFG_STATUS s).2).1 &&& 0xFD) p
          (pci_config_in_byte H P bus device function H.PCI_CFG_CAP_PTR
            (pci_config_in_word H P bus device function H.PCI_CFG_STATUS s).2).2 ∧
    ((pci_config_in_byte H P bus device function H.PCI_CFG_CAP_PTR
      (pci_config_in_word H P bus device function H.PCI_CFG_STATUS s).2).1 &&& 0xFD) &&& 2 = 0 ∧
    ((pci_config_in_byte H P bus device function H.PCI_CFG_CAP_PTR
        (pci_config_in_word H P bus device function H.PCI_CFG_STATUS s).2).1 % 2 = 0 →
      ((pci_config_in_byte H P bus device function H.PCI_CFG_CAP_PTR
        (pci_config_in_word H P bus device function H.PCI_CFG_STATUS s).2).1 &&& 0xFD) % 2
          = 0) := by
  have h1 : ¬ (pci_config_in_word H P bus device function H.PCI_CFG_STATUS s).1
      &&& H.PCI_STATUS_NEW_CAP = 0 := hstat
  have h2 : ¬ (pci_config_in_byte H P bus device function H.PCI_CFG_CAP_PTR
      (pci_config_in_word H P bus device function H.PCI_CFG_STATUS s).2).1
        &&& 0xFD < 0x40 := Nat.not_lt.mpr hptr
  have hm := mask_fd_facts (pci_config_in_byte H P bus device function H.PCI_CFG_CAP_PTR
    (pci_config_in_word H P bus device function H.PCI_CFG_STATUS s).2).1
  refine ⟨?_, hm.1, fun heven => ?_⟩
  · unfold pci_config_ext_cap_ptr_find_run
    simp only [if_neg h1, if_neg h2]
    rfl
  · rw [hm.2]
    exact heven

/-- The initial offset at the CAP_PTR byte `0x42` of a configuration space
whose other bytes are those of the two-node example: the traversal starts at
`0x40`. -/
theorem ext_cap_ptr_find_initial_offset_witness :
    ((pci_config_in_word pci_mgr_std sim_pci 0 1 0 pci_mgr_std.PCI_CFG_STATUS
        (cfg_of_bytes fun o => if o = 0x34 then 0x42 else example_bytes o)).1
          &&& pci_mgr_std.PCI_STATUS_NEW_CAP ≠ 0 ∧
      (pci_config_in_byte pci_mgr_std sim_pci 0 1 0 pci_mgr_std.PCI_CFG_CAP_PTR
        (cfg_of_bytes fun o => if o = 0x34 then 0x42 else example_bytes o)).1 = 0x42) ∧
    pci_config_ext_cap_ptr_find_run pci_mgr_std sim_pci 0 0x05 0 1 0 7
        (cfg_of_bytes fun o => if o = 0x34 then 0x42 else example_bytes o)
      = .running 0x40 7 (cfg_of_bytes fun o => if o = 0x34 then 0x42 else example_bytes o) :=
  ⟨⟨by decide, by decide⟩,
    (ext_cap_ptr_find_initial_offset pci_mgr_std sim_pci 0x05 0 1 0 7
      (cfg_of_bytes fun o => if o = 0x34 then 0x42 else example_bytes o)
      (by decide) (by decide)).1⟩

/-- C14, as stated, fails: from the current offset `0xFF`, whose ID byte
`0x02` differs from the wanted `0x05`, the loop does not continue with the byte
at configuration offset `0x100` (here `0x00`) but with the byte at offset
`0x00` (here `0x48`); the second read of the pass is issued on register 0,
lane 0. -/
theorem next_pointer_wraps_at_ff :
    (wrap_bytes (0xFF + 1) = 0x00 ∧ wrap_bytes 0x00 = 0x48) ∧
    cap_loop_iter pci_mgr_std sim_pci 0x05 0 1 0 (.running 0xFF 7 (cfg_of_bytes wrap_bytes))
      = .running 0x48 7 (cfg_of_bytes wrap_bytes) ∧
    (cap_loop_iter pci_mgr_std sim_pci.logged 0x05 0 1 0
      (.running 0xFF 7 (cfg_of_bytes wrap_bytes, []))).world.2
      = [pci_txn.read 0 { bus := 0, device := 1, func := 0, reg := 63, offset := 3 } 1,
         pci_txn.read 0 { bus := 0, device := 1, func := 0, reg := 0, offset := 0 } 1] :=
  ⟨⟨by decide, by decide⟩, rfl, by decide⟩

theorem tmp_offset_eq (c : Nat) (hc : c ≤ 0xFF) :
    (c + 1) % 2 ^ 8 = if c = 0xFF then 0x00 else c + 1 := by
  by_cases h : c = 0xFF
  · rw [if_pos h, h]
    rfl
  · rw [if_neg h]
    exact Nat.mod_eq_of_lt (by omega)

/-- C14, amended: for every nonzero current offset `c` in `[0x01, 0xFF]` whose
ID byte differs from the wanted one, the pass reads the next-pointer byte at
the 8-bit offset `c + 1`, which is `c + 1` for `c` up to `0xFE` and `0x00` for
`c = 0xFF`, and continues with the value read there as the new current offset,
`*p_offset` untouched; its transactions are the ID read at `c` and that
next-pointer read. -/
theorem cap_loop_next_pointer {σ : Type} (H : pci_mgr) (P : raw_pci σ)
    (id bus device function c p : Nat) (s : σ)
    (hc1 : 0x01 ≤ c) (hc2 : c ≤ 0xFF)
    (hid : (pci_config_in_byte H P bus device function c s).1 ≠ id) :
    cap_loop_iter H P id bus device function (.running c p s)
      = .running
          (pci_config_in_byte H P bus device function (if c = 0xFF then 0x00 else c + 1)
            (pci_config_in_byte H P bus device function c s).2).1 p
          (pci_config_in_byte H P bus device function (if c = 0xFF then 0x00 else c + 1)
            (pci_config_in_byte H P bus device function c s).2).2 ∧
    (cap_loop_iter H P.logged id bus device function (.running c p (s, []))).world.2
      = (pci_config_in_byte H P.logged bus device function c (s, [])).2.2
        ++ (pci_config_in_byte H P.logged bus device function
            (if c = 0xFF then 0x00 else c + 1) (s, [])).2.2 := by
  have hc : ¬ c = 0 := by omega
  have hid2 : ¬ (pci_config_in_byte H P.logged bus device function c (s, [])).1 = id := hid
  constructor
  · rw [cap_loop_iter_running, if_neg hc, if_neg hid, tmp_offset_eq c hc2]
  · rw [cap_loop_iter_running, if_neg hc, if_neg hid2, tmp_offset_eq c hc2]
    rfl

/-- C14, amended, on the fixture with a node at `0xFF`: from `0x40` the pass
reads the next-pointer at `0x41` and continues at `0xFF`; from `0xFF` it reads
at `0x00` and continues at `0x48`. -/
theorem cap_loop_next_pointer_witness :
    ((0x01 ≤ 0x40 ∧ 0x40 ≤ 0xFF ∧
        (pci_config_in_byte pci_mgr_std sim_pci 0 1 0 0x40 (cfg_of_bytes wrap_bytes)).1 ≠ 0x05) ∧
      (0x01 ≤ 0xFF ∧ 0xFF ≤ 0xFF ∧
        (pci_config_in_byte pci_mgr_std sim_pci 0 1 0 0xFF (cfg_of_bytes wrap_bytes)).1 ≠ 0x05)) ∧
    cap_loop_iter pci_mgr_std sim_pci 0x05 0 1 0 (.running 0x40 7 (cfg_of_bytes wrap_bytes))
      = .running 0xFF 7 (cfg_of_bytes wrap_bytes) ∧
    cap_loop_iter pci_mgr_std sim_pci 0x05 0 1 0 (.running 0xFF 7 (cfg_of_bytes wrap_bytes))
      = .running 0x48 7 (cfg_of_bytes wrap_bytes) :=
  ⟨⟨⟨by decide, by decide, by decide⟩, ⟨by decide, by decide, by decide⟩⟩,
    (cap_loop_next_pointer pci_mgr_std sim_pci 0x05 0 1 0 0x40 7 (cfg_of_bytes wrap_bytes)
      (by decide) (by decide) (by decide)).1,
    (cap_loop_next_pointer pci_mgr_std sim_pci 0x05 0 1 0 0xFF 7 (cfg_of_bytes wrap_bytes)
      (by decide) (by decide) (by decide)).1⟩

/-! The 256-pass bound. -/

theorem cfg_byte_lt (H : pci_mgr) (mem : pci_addr_reg → Nat) (bus device function o : Nat) :
    cfg_byte H mem bus device function o < 256 :=
  in_byte_lt H sim_pci bus device function o mem

theorem cap_walk_lt (H : pci_mgr) (mem : pci_addr_reg → Nat) (bus device function : Nat)
    (n : Nat) : ∀ c, c < 256 → cap_walk H mem bus device function c n < 256 := by
  induction n with
  | zero => intro c hc; exact hc
  | succ n ih =>
    intro c _
    rw [cap_walk_succ]
    exact ih _ (cfg_byte_lt H mem bus device function _)

theorem cap_chain_lt (H : pci_mgr) (mem : pci_addr_reg → Nat) (bus device function n : Nat) :
    cap_chain H mem bus device function n < 256 :=
  cap_walk_lt H mem bus device function n _
    (Nat.lt_of_le_of_lt Nat.and_le_left (cfg_byte_lt H mem bus device function _))

/-- A chain prefix of nonzero, pairwise distinct offsets has at most 255
offsets: they are bytes. -/
theorem cap_chain_prefix_le (H : pci_mgr) (mem : pci_addr_reg → Nat)
    (bus device function m : Nat)
    (hnz : ∀ k, k < m → cap_chain H mem bus device function k ≠ 0)
    (hinj : ∀ i j, i < j → j < m →
      cap_chain H mem bus device function i ≠ cap_chain H mem bus device function j) :
    m ≤ 255 := by
  have hcard := Finset.card_le_card_of_injOn (s := Finset.range m) (t := Finset.Icc 1 255)
    (cap_chain H mem bus device function)
    (fun k hk => by
      have hk2 := hnz k (Finset.mem_range.mp hk)
      have hk3 := cap_chain_lt H mem bus device function k
      exact Finset.mem_Icc.mpr ⟨by omega, by omega⟩)
    (fun i hi j hj hij => by
      have hi2 : i < m := Finset.mem_range.mp hi
      have hj2 : j < m := Finset.mem_range.mp hj
      rcases Nat.lt_trichotomy i j with hlt | heq | hgt
      · exact absurd hij (hinj i j hlt hj2)
      · exact heq
      · exact absurd hij.symm (hinj j i hgt hi2))
  simpa using hcard

/-- A chain prefix that ends the search, at a zero offset or at a match, with
no zero and no match before, visits no offset twice. -/
theorem cap_chain_prefix_distinct (H : pci_mgr) (mem : pci_addr_reg → Nat)
    (id bus device function m : Nat)
    (hgood : ∀ k, k < m → cap_chain H mem bus device function k ≠ 0 ∧
      cfg_byte H mem bus device function (cap_chain H mem bus device function k) ≠ id)
    (hend : cap_chain H mem bus device function m = 0 ∨
      cfg_byte H mem bus device function (cap_chain H mem bus device function m) = id) :
    ∀ i j, i < j → j ≤ m →
      cap_chain H mem bus device function i ≠ cap_chain H mem bus device function j := by
  intro i j hij hjm hcyc
  have hall := cap_chain_of_cycle H mem id bus device function i j hij hcyc
    (fun k hk => hgood k (by omega))
  rcases hend with hz | hm
  · exact hall.1 m hz
  · exact hall.2 m hm

/-- C15: on every simulated (unchanging) configuration space and for every
wanted ID, if the search returns at all, with result `r`, then it does so after
a number `m` of executions of the loop body that is at most 255, the `m`
offsets visited being nonzero and pairwise distinct: a hit returns within the
`m`-th pass, a miss at the loop test after `m` passes.  Hence the search cut
off after 256 passes returns that same `r`, and it reports the cut-off
(`none`) only when the search returns with no amount of fuel. -/
theorem ext_cap_ptr_find_bound_256 (H : pci_mgr) (mem : pci_addr_reg → Nat)
    (id bus device function p : Nat) :
    (∀ fuel r,
      pci_config_ext_cap_ptr_find H sim_pci fuel id bus device function p mem = some r →
      (∃ m, m ≤ 255 ∧
        (∀ k, k < m → cap_chain H mem bus device function k ≠ 0) ∧
        (∀ i j, i < j → j < m →
          cap_chain H mem bus device function i ≠ cap_chain H mem bus device function j) ∧
        ((r.ret = 0 ∧
            pci_config_ext_cap_ptr_find H sim_pci m id bus device function p mem = some r) ∨
          (r.ret = -1 ∧
            pci_config_ext_cap_ptr_find H sim_pci (m + 1) id bus device function p mem
              = some r))) ∧
      pci_config_ext_cap_ptr_find H sim_pci 256 id bus device function p mem = some r) ∧
    (pci_config_ext_cap_ptr_find H sim_pci 256 id bus device function p mem = none →
      ∀ fuel, pci_config_ext_cap_ptr_find H sim_pci fuel id bus device function p mem = none) := by
  have hmain : ∀ fuel r,
      pci_config_ext_cap_ptr_find H sim_pci fuel id bus device function p mem = some r →
      (∃ m, m ≤ 255 ∧
        (∀ k, k < m → cap_chain H mem bus device function k ≠ 0) ∧
        (∀ i j, i < j → j < m →
          cap_chain H mem bus device function i ≠ cap_chain H mem bus device function j) ∧
        ((r.ret = 0 ∧
            pci_config_ext_cap_ptr_find H sim_pci m id bus device function p mem = some r) ∨
          (r.ret = -1 ∧
            pci_config_ext_cap_ptr_find H sim_pci (m + 1) id bus device function p mem
              = some r))) ∧
      pci_config_ext_cap_ptr_find H sim_pci 256 id bus device function p mem = some r := by
    intro fuel r hret
    by_cases hstat : cfg_status H mem bus device function &&& H.PCI_STATUS_NEW_CAP = 0
    · have h := find_of_status_clear H sim_pci fuel id bus device function p mem hstat
      rw [hret] at h
      have hr : r.ret = -1 := by rw [Option.some.inj h]
      refine ⟨⟨0, by decide, fun k hk => absurd hk (Nat.not_lt_zero k),
        fun i j _ hj => absurd hj (Nat.not_lt_zero j), Or.inr ⟨hr, ?_⟩⟩, ?_⟩
      · rw [h]; exact find_of_status_clear H sim_pci _ id bus device function p mem hstat
      · rw [h]; exact find_of_status_clear H sim_pci _ id bus device function p mem hstat
    · by_cases hptr : cap_chain H mem bus device function 0 < 0x40
      · have h := find_of_low_ptr H sim_pci fuel id bus device function p mem hstat hptr
        rw [hret] at h
        have hr : r.ret = -1 := by rw [Option.some.inj h]
        refine ⟨⟨0, by decide, fun k hk => absurd hk (Nat.not_lt_zero k),
          fun i j _ hj => absurd hj (Nat.not_lt_zero j), Or.inr ⟨hr, ?_⟩⟩, ?_⟩
        · rw [h]; exact find_of_low_ptr H sim_pci _ id bus device function p mem hstat hptr
        · rw [h]; exact find_of_low_ptr H sim_pci _ id bus device function p mem hstat hptr
      · have hptr2 : 0x40 ≤ cap_chain H mem bus device function 0 := Nat.not_lt.mp hptr
        rcases find_sim_cases H mem id bus device function p fuel hstat hptr2 with
          ⟨-, -, hnone⟩ | ⟨m, -, hgood, hz, hr⟩ | ⟨k, -, hgood, hnz, hmatch, hr⟩
        · rw [hret] at hnone
          exact absurd hnone (Option.some_ne_none r)
        · rw [hret] at hr
          have hr1 : r.ret = -1 := by rw [Option.some.inj hr]
          have hdist := cap_chain_prefix_distinct H mem id bus device function m hgood
            (Or.inl hz)
          have hm255 := cap_chain_prefix_le H mem bus device function m
            (fun k hk => (hgood k hk).1) (fun i j hij hj => hdist i j hij (Nat.le_of_lt hj))
          refine ⟨⟨m, hm255, fun k hk => (hgood k hk).1,
            fun i j hij hj => hdist i j hij (Nat.le_of_lt hj), Or.inr ⟨hr1, ?_⟩⟩, ?_⟩
          · rw [hr]
            exact find_sim_miss H mem id bus device function p m hstat hptr2 hgood hz (m + 1)
              (Nat.lt_succ_self m)
          · rw [hr]
            exact find_sim_miss H mem id bus device function p m hstat hptr2 hgood hz 256
              (by omega)
        · rw [hret] at hr
          have hr0 : r.ret = 0 := by rw [Option.some.inj hr]
          have hdist := cap_chain_prefix_distinct H mem id bus device function k hgood
            (Or.inr hmatch)
          have hnz2 : ∀ j, j < k + 1 → cap_chain H mem bus device function j ≠ 0 := by
            intro j hj
            rcases Nat.eq_or_lt_of_le (Nat.le_of_lt_succ hj) with heq | hlt
            · rw [heq]; exact hnz
            · exact (hgood j hlt).1
          have hk255 := cap_chain_prefix_le H mem bus device function (k + 1) hnz2
            (fun i j hij hj => hdist i j hij (Nat.le_of_lt_succ hj))
          refine ⟨⟨k + 1, hk255, hnz2,
            fun i j hij hj => hdist i j hij (Nat.le_of_lt_succ hj), Or.inl ⟨hr0, ?_⟩⟩, ?_⟩
          · rw [hr]
            exact find_sim_hit H mem id bus device function p k hstat hptr2 hgood hnz hmatch
              (k + 1) (Nat.lt_succ_self k)
          · rw [hr]
            exact find_sim_hit H mem id bus device function p k hstat hptr2 hgood hnz hmatch
              256 (by omega)
  refine ⟨hmain, fun h256 fuel => ?_⟩
  cases hf : pci_config_ext_cap_ptr_find H sim_pci fuel id bus device function p mem with
  | none => rfl
  | some r =>
    have h := (hmain fuel r hf).2
    rw [h256] at h
    exact absurd h (Option.some_ne_none r).symm

/-- C15 on the two-node example, where fuel 3 yields the hit at `0x48` and so
does the cut-off after 256 passes, and on the self-cycle, where the cut-off is
reported and no fuel yields a result. -/
theorem ext_cap_ptr_find_bound_256_witness :
    (pci_config_ext_cap_ptr_find pci_mgr_std sim_pci 3 0x05 0 1 0 7 (cfg_of_bytes example_bytes)
        = some { ret := 0, p_offset := 0x48, world := cfg_of_bytes example_bytes } ∧
      pci_config_ext_cap_ptr_find pci_mgr_std sim_pci 256 0x05 0 1 0 7
          (cfg_of_bytes example_bytes)
        = some { ret := 0, p_offset := 0x48, world := cfg_of_bytes example_bytes }) ∧
    (pci_config_ext_cap_ptr_find pci_mgr_std sim_pci 256 0x05 0 1 0 7
          (cfg_of_bytes self_cycle_bytes) = none ∧
      ∀ fuel, pci_config_ext_cap_ptr_find pci_mgr_std sim_pci fuel 0x05 0 1 0 7
          (cfg_of_bytes self_cycle_bytes) = none) :=
  ⟨⟨rfl,
      ((ext_cap_ptr_find_bound_256 pci_mgr_std (cfg_of_bytes example_bytes) 0x05 0 1 0 7).1 3
        { ret := 0, p_offset := 0x48, world := cfg_of_bytes example_bytes } rfl).2⟩,
    (find_sim_running pci_mgr_std (cfg_of_bytes self_cycle_bytes) 0x05 0 1 0 7
      (by decide) (by decide)
      (cap_chain_of_cycle pci_mgr_std (cfg_of_bytes self_cycle_bytes) 0x05 0 1 0 0 1
        (by decide) (by decide) (by decide)) 256).2,
    (ext_cap_ptr_find_bound_256 pci_mgr_std (cfg_of_bytes self_cycle_bytes) 0x05 0 1 0 7).2
      (find_sim_running pci_mgr_std (cfg_of_bytes self_cycle_bytes) 0x05 0 1 0 7
        (by decide) (by decide)
        (cap_chain_of_cycle pci_mgr_std (cfg_of_bytes self_cycle_bytes) 0x05 0 1 0 0 1
          (by decide) (by decide) (by decide)) 256).2⟩

/-! Hits. -/

/-- C17: on every simulated configuration space, with no assumption on the
list, whenever the search returns 0 the new-capabilities bit of STATUS is set,
the offset left in `*p_offset` is nonzero and the configuration byte at that
offset is the wanted ID; whenever it returns -1, `*p_offset` holds what it
held on entry. -/
theorem ext_cap_ptr_find_hit_sound (H : pci_mgr) (mem : pci_addr_reg → Nat)
    (id bus device function p fuel : Nat) (r : find_result (pci_addr_reg → Nat))
    (hret : pci_config_ext_cap_ptr_find H sim_pci fuel id bus device function p mem = some r) :
    (r.ret = 0 →
      cfg_status H mem bus device function &&& H.PCI_STATUS_NEW_CAP ≠ 0 ∧
      r.p_offset ≠ 0 ∧
      cfg_byte H mem bus device function r.p_offset = id) ∧
    (r.ret = -1 → r.p_offset = p) := by
  by_cases hstat : cfg_status H mem bus device function &&& H.PCI_STATUS_NEW_CAP = 0
  · have h := find_of_status_clear H sim_pci fuel id bus device function p mem hstat
    rw [hret] at h
    have hr1 : r.ret = -1 := by rw [Option.some.inj h]
    have hp : r.p_offset = p := by rw [Option.some.inj h]
    refine ⟨fun h0 => ?_, fun _ => hp⟩
    rw [hr1] at h0
    exact absurd h0 (by decide)
  · by_cases hptr : cap_chain H mem bus device function 0 < 0x40
    · have h := find_of_low_ptr H sim_pci fuel id bus device function p mem hstat hptr
      rw [hret] at h
      have hr1 : r.ret = -1 := by rw [Option.some.inj h]
      have hp : r.p_offset = p := by rw [Option.some.inj h]
      refine ⟨fun h0 => ?_, fun _ => hp⟩
      rw [hr1] at h0
      exact absurd h0 (by decide)
    · rcases find_sim_cases H mem id bus device function p fuel hstat (Nat.not_lt.mp hptr) with
        ⟨-, -, hnone⟩ | ⟨m, -, -, -, hr⟩ | ⟨k, -, -, hnz, hmatch, hr⟩
      · rw [hret] at hnone
        exact absurd hnone (Option.some_ne_none r)
      · rw [hret] at hr
        have hr1 : r.ret = -1 := by rw [Option.some.inj hr]
        have hp : r.p_offset = p := by rw [Option.some.inj hr]
        refine ⟨fun h0 => ?_, fun _ => hp⟩
        rw [hr1] at h0
        exact absurd h0 (by decide)
      · rw [hret] at hr
        have hr0 : r.ret = 0 := by rw [Option.some.inj hr]
        have hp : r.p_offset = cap_chain H mem bus device function k := by
          rw [Option.some.inj hr]
        refine ⟨fun _ => ⟨hstat, ?_, ?_⟩, fun h1 => ?_⟩
        · rw [hp]; exact hnz
        · rw [hp]; exact hmatch
        · rw [hr0] at h1
          exact absurd h1 (by decide)

/-- C17 on the two-node example: the hit for `0x05` at `0x48` and the miss for
`0x99`, which leaves the 7 that `*p_offset` held. -/
theorem ext_cap_ptr_find_hit_sound_witness :
    (pci_config_ext_cap_ptr_find pci_mgr_std sim_pci 3 0x05 0 1 0 7 (cfg_of_bytes example_bytes)
        = some { ret := 0, p_offset := 0x48, world := cfg_of_bytes example_bytes } ∧
      cfg_status pci_mgr_std (cfg_of_bytes example_bytes) 0 1 0
        &&& pci_mgr_std.PCI_STATUS_NEW_CAP ≠ 0 ∧
      (0x48 : Nat) ≠ 0 ∧
      cfg_byte pci_mgr_std (cfg_of_bytes example_bytes) 0 1 0 0x48 = 0x05) ∧
    (pci_config_ext_cap_ptr_find pci_mgr_std sim_pci 3 0x99 0 1 0 7 (cfg_of_bytes example_bytes)
        = some { ret := -1, p_offset := 7, world := cfg_of_bytes example_bytes } ∧
      (7 : Nat) = 7) :=
  ⟨⟨rfl,
      (ext_cap_ptr_find_hit_sound pci_mgr_std (cfg_of_bytes example_bytes) 0x05 0 1 0 7 3
        { ret := 0, p_offset := 0x48, world := cfg_of_bytes example_bytes } rfl).1 rfl⟩,
    ⟨rfl,
      (ext_cap_ptr_find_hit_sound pci_mgr_std (cfg_of_bytes example_bytes) 0x99 0 1 0 7 3
        { ret := -1, p_offset := 7, world := cfg_of_bytes example_bytes } rfl).2 rfl⟩⟩

set_option maxRecDepth 100000 in
/-- The list of `reach_bytes o`, for every nonzero byte offset `o`: the bit is
set, the first node is at or above the floor and does not carry `reach_id o`,
the second node is `o` and carries it. -/
theorem reach_bytes_facts : ∀ o, o < 256 → 1 ≤ o →
    (cfg_status pci_mgr_std (cfg_of_bytes (reach_bytes o)) 0 1 0
        &&& pci_mgr_std.PCI_STATUS_NEW_CAP ≠ 0 ∧
      0x40 ≤ cap_chain pci_mgr_std (cfg_of_bytes (reach_bytes o)) 0 1 0 0 ∧
      cfg_byte pci_mgr_std (cfg_of_bytes (reach_bytes o)) 0 1 0
        (cap_chain pci_mgr_std (cfg_of_bytes (reach_bytes o)) 0 1 0 0) ≠ reach_id o ∧
      cap_chain pci_mgr_std (cfg_of_bytes (reach_bytes o)) 0 1 0 1 = o ∧
      cfg_byte pci_mgr_std (cfg_of_bytes (reach_bytes o)) 0 1 0 o = reach_id o) := by
  decide

set_option maxRecDepth 100000 in
/-- The list of `first_bytes o`, for every byte offset `o` at or above the
floor with bit 1 clear: the bit is set, the first node is `o` and carries the
ID `0x05`. -/
theorem first_bytes_facts : ∀ o, o < 256 → 0x40 ≤ o → o &&& 2 = 0 →
    (cfg_status pci_mgr_std (cfg_of_bytes (first_bytes o)) 0 1 0
        &&& pci_mgr_std.PCI_STATUS_NEW_CAP ≠ 0 ∧
      cap_chain pci_mgr_std (cfg_of_bytes (first_bytes o)) 0 1 0 0 = o ∧
      cfg_byte pci_mgr_std (cfg_of_bytes (first_bytes o)) 0 1 0 o = 0x05) := by
  decide

/-- A hit within the first pass of the loop, on any header and simulated
configuration space, is at the first node: its offset is at least `0x40` and
has bit 1 clear. -/
theorem first_pass_hit_offset (H : pci_mgr) (mem : pci_addr_reg → Nat)
    (id bus device function p : Nat) (r : find_result (pci_addr_reg → Nat))
    (h1 : pci_config_ext_cap_ptr_find H sim_pci 1 id bus device function p mem = some r)
    (h0 : r.ret = 0) :
    0x40 ≤ r.p_offset ∧ r.p_offset &&& 2 = 0 := by
  by_cases hstat : cfg_status H mem bus device function &&& H.PCI_STATUS_NEW_CAP = 0
  · have h := find_of_status_clear H sim_pci 1 id bus device function p mem hstat
    rw [h1] at h
    have hr1 : r.ret = -1 := by rw [Option.some.inj h]
    rw [hr1] at h0
    exact absurd h0 (by decide)
  · by_cases hptr : cap_chain H mem bus device function 0 < 0x40
    · have h := find_of_low_ptr H sim_pci 1 id bus device function p mem hstat hptr
      rw [h1] at h
      have hr1 : r.ret = -1 := by rw [Option.some.inj h]
      rw [hr1] at h0
      exact absurd h0 (by decide)
    · have hptr2 : 0x40 ≤ cap_chain H mem bus device function 0 := Nat.not_lt.mp hptr
      rcases find_sim_cases H mem id bus device function p 1 hstat hptr2 with
        ⟨-, -, hnone⟩ | ⟨m, -, -, -, hr2⟩ | ⟨m, hm, -, -, -, hr2⟩
      · rw [h1] at hnone
        exact absurd hnone (Option.some_ne_none r)
      · rw [h1] at hr2
        have hr1 : r.ret = -1 := by rw [Option.some.inj hr2]
        rw [hr1] at h0
        exact absurd h0 (by decide)
      · rw [h1] at hr2
        have hm0 : m = 0 := by omega
        have hp2 : r.p_offset = cap_chain H mem bus device function 0 := by
          rw [Option.some.inj hr2, hm0]
        rw [hp2]
        exact ⟨hptr2,
          (mask_fd_facts (cfg_byte H mem bus device function H.PCI_CFG_CAP_PTR)).1⟩

/-- C18, as stated, fails: offsets below `0x40` are not the only ones excluded
for the first node.  The offset `0x42` is at or above the floor, yet with
CAP_PTR `0x42` and the wanted ID `0x05` sitting at `0x42` the traversal starts
at `0x40` and the search returns -1; and on no header and configuration space
is `0x42` returned within the first pass. -/
theorem ext_cap_ptr_find_first_node_masked :
    (0x40 ≤ 0x42 ∧
      cfg_byte pci_mgr_std (cfg_of_bytes masked_ptr_bytes) 0 1 0
        pci_mgr_std.PCI_CFG_CAP_PTR = 0x42 ∧
      cfg_byte pci_mgr_std (cfg_of_bytes masked_ptr_bytes) 0 1 0 0x42 = 0x05) ∧
    pci_config_ext_cap_ptr_find_run pci_mgr_std sim_pci 0 0x05 0 1 0 7
        (cfg_of_bytes masked_ptr_bytes)
      = .running 0x40 7 (cfg_of_bytes masked_ptr_bytes) ∧
    pci_config_ext_cap_ptr_find pci_mgr_std sim_pci 2 0x05 0 1 0 7
        (cfg_of_bytes masked_ptr_bytes)
      = some { ret := -1, p_offset := 7, world := cfg_of_bytes masked_ptr_bytes } ∧
    (¬ ∃ (H : pci_mgr) (mem : pci_addr_reg → Nat) (id bus device function p : Nat)
        (r : find_result (pci_addr_reg → Nat)),
      pci_config_ext_cap_ptr_find H sim_pci 1 id bus device function p mem = some r ∧
      r.ret = 0 ∧ r.p_offset = 0x42) := by
  refine ⟨⟨by decide, by decide, by decide⟩, rfl, rfl, ?_⟩
  rintro ⟨H, mem, id, bus, device, function, p, r, h1, h0, hp⟩
  have h := (first_pass_hit_offset H mem id bus device function p r h1 h0).2
  rw [hp] at h
  exact absurd h (by decide)

/-- C18, amended: the `0x40` floor applies to the initial pointer only.  On the
example (bit set, CAP_PTR `0x40`, node `0x40` with id `0x01` and next `0x10`,
byte `0x10` holding `0x05`) looking up `0x05` returns 0 with offset `0x10`,
below the floor.  Every nonzero byte offset `o` is returned on some
configuration space (that of `reach_bytes o`, as the second node), so beyond
the first node only `0x00` is excluded.  For the first node the excluded
offsets are those below `0x40` and those with bit 1 set, and no others: every
byte offset at or above `0x40` with bit 1 clear is returned within the first
pass on some configuration space (that of `first_bytes o`), and an offset
returned with 0 is a nonzero byte which, when returned within the first pass,
is at least `0x40` and has bit 1 clear. -/
theorem ext_cap_ptr_find_floor_initial_only :
    (pci_config_ext_cap_ptr_find pci_mgr_std sim_pci 2 0x05 0 1 0 7
        (cfg_of_bytes below_floor_bytes)
      = some { ret := 0, p_offset := 0x10, world := cfg_of_bytes below_floor_bytes } ∧
      0x10 < 0x40) ∧
    (∀ o, 1 ≤ o → o ≤ 0xFF →
      pci_config_ext_cap_ptr_find pci_mgr_std sim_pci 2 (reach_id o) 0 1 0 7
          (cfg_of_bytes (reach_bytes o))
        = some { ret := 0, p_offset := o, world := cfg_of_bytes (reach_bytes o) }) ∧
    (∀ o, 0x40 ≤ o → o ≤ 0xFF → o &&& 2 = 0 →
      pci_config_ext_cap_ptr_find pci_mgr_std sim_pci 1 0x05 0 1 0 7
          (cfg_of_bytes (first_bytes o))
        = some { ret := 0, p_offset := o, world := cfg_of_bytes (first_bytes o) }) ∧
    (∀ (H : pci_mgr) (mem : pci_addr_reg → Nat) (id bus device function p fuel : Nat)
      (r : find_result (pci_addr_reg → Nat)),
      pci_config_ext_cap_ptr_find H sim_pci fuel id bus device function p mem = some r →
      r.ret = 0 →
      r.p_offset ≠ 0 ∧ r.p_offset ≤ 0xFF ∧
      (pci_config_ext_cap_ptr_find H sim_pci 1 id bus device function p mem = some r →
        0x40 ≤ r.p_offset ∧ r.p_offset &&& 2 = 0)) := by
  refine ⟨⟨rfl, by decide⟩, fun o ho1 ho2 => ?_, fun o ho1 ho2 hbit => ?_, ?_⟩
  · have hf := reach_bytes_facts o (by omega) ho1
    have h := find_sim_hit pci_mgr_std (cfg_of_bytes (reach_bytes o)) (reach_id o) 0 1 0 7 1
      hf.1 hf.2.1
      (fun j hj => by
        have hj0 : j = 0 := by omega
        rw [hj0]
        exact ⟨by have := hf.2.1; omega, hf.2.2.1⟩)
      (by rw [hf.2.2.2.1]; omega)
      (by rw [hf.2.2.2.1]; exact hf.2.2.2.2) 2 (by decide)
    rw [hf.2.2.2.1] at h
    exact h
  · have hf := first_bytes_facts o (by omega) ho1 hbit
    have h := find_sim_hit pci_mgr_std (cfg_of_bytes (first_bytes o)) 0x05 0 1 0 7 0
      hf.1 (by rw [hf.2.1]; exact ho1)
      (fun j hj => absurd hj (Nat.not_lt_zero j))
      (by rw [hf.2.1]; omega)
      (by rw [hf.2.1]; exact hf.2.2) 1 (by decide)
    rw [hf.2.1] at h
    exact h
  · intro H mem id bus device function p fuel r hret h0
    by_cases hstat : cfg_status H mem bus device function &&& H.PCI_STATUS_NEW_CAP = 0
    · have h := find_of_status_clear H sim_pci fuel id bus device function p mem hstat
      rw [hret] at h
      have hr1 : r.ret = -1 := by rw [Option.some.inj h]
      rw [hr1] at h0
      exact absurd h0 (by decide)
    · by_cases hptr : cap_chain H mem bus device function 0 < 0x40
      · have h := find_of_low_ptr H sim_pci fuel id bus device function p mem hstat hptr
        rw [hret] at h
        have hr1 : r.ret = -1 := by rw [Option.some.inj h]
        rw [hr1] at h0
        exact absurd h0 (by decide)
      · have hptr2 : 0x40 ≤ cap_chain H mem bus device function 0 := Nat.not_lt.mp hptr
        rcases find_sim_cases H mem id bus device function p fuel hstat hptr2 with
          ⟨-, -, hnone⟩ | ⟨m, -, -, -, hr⟩ | ⟨k, -, -, hnz, -, hr⟩
        · rw [hret] at hnone
          exact absurd hnone (Option.some_ne_none r)
        · rw [hret] at hr
          have hr1 : r.ret = -1 := by rw [Option.some.inj hr]
          rw [hr1] at h0
          exact absurd h0 (by decide)
        · rw [hret] at hr
          have hp : r.p_offset = cap_chain H mem bus device function k := by
            rw [Option.some.inj hr]
          refine ⟨by rw [hp]; exact hnz, ?_, fun h1 =>
            first_pass_hit_offset H mem id bus device function p r h1 h0⟩
          rw [hp]
          exact Nat.le_of_lt_succ (cap_chain_lt H mem bus device function k)

/-- C18, amended, at the offset `0x3F`, just below the floor, returned as the
second node of `reach_bytes 0x3F`; at the offset `0x44`, returned as the first
node of `first_bytes 0x44`; and at the first-node hit `0x40` of the two-node
example, which is at the floor with bit 1 clear. -/
theorem ext_cap_ptr_find_floor_initial_only_witness :
    ((1 ≤ 0x3F ∧ 0x3F ≤ 0xFF) ∧
      pci_config_ext_cap_ptr_find pci_mgr_std sim_pci 2 (reach_id 0x3F) 0 1 0 7
          (cfg_of_bytes (reach_bytes 0x3F))
        = some { ret := 0, p_offset := 0x3F, world := cfg_of_bytes (reach_bytes 0x3F) }) ∧
    ((0x40 ≤ 0x44 ∧ 0x44 ≤ 0xFF ∧ 0x44 &&& 2 = 0) ∧
      pci_config_ext_cap_ptr_find pci_mgr_std sim_pci 1 0x05 0 1 0 7
          (cfg_of_bytes (first_bytes 0x44))
        = some { ret := 0, p_offset := 0x44, world := cfg_of_bytes (first_bytes 0x44) }) ∧
    (pci_config_ext_cap_ptr_find pci_mgr_std sim_pci 1 0x01 0 1 0 7 (cfg_of_bytes example_bytes)
        = some { ret := 0, p_offset := 0x40, world := cfg_of_bytes example_bytes } ∧
      (0x40 : Nat) ≠ 0 ∧ 0x40 ≤ 0xFF ∧ 0x40 ≤ 0x40 ∧ 0x40 &&& 2 = 0) :=
  ⟨⟨⟨by decide, by decide⟩,
      ext_cap_ptr_find_floor_initial_only.2.1 0x3F (by decide) (by decide)⟩,
    ⟨⟨by decide, by decide, by decide⟩,
      ext_cap_ptr_find_floor_initial_only.2.2.1 0x44 (by decide) (by decide) (by decide)⟩,
    rfl,
    (ext_cap_ptr_find_floor_initial_only.2.2.2 pci_mgr_std (cfg_of_bytes example_bytes)
      0x01 0 1 0 7 1 { ret := 0, p_offset := 0x40, world := cfg_of_bytes example_bytes }
      rfl rfl).1,
    (ext_cap_ptr_find_floor_initial_only.2.2.2 pci_mgr_std (cfg_of_bytes example_bytes)
      0x01 0 1 0 7 1 { ret := 0, p_offset := 0x40, world := cfg_of_bytes example_bytes }
      rfl rfl).2.1,
    ((ext_cap_ptr_find_floor_initial_only.2.2.2 pci_mgr_std (cfg_of_bytes example_bytes)
      0x01 0 1 0 7 1 { ret := 0, p_offset := 0x40, world := cfg_of_bytes example_bytes }
      rfl rfl).2.2 rfl).1,
    ((ext_cap_ptr_find_floor_initial_only.2.2.2 pci_mgr_std (cfg_of_bytes example_bytes)
      0x01 0 1 0 7 1 { ret := 0, p_offset := 0x40, world := cfg_of_bytes example_bytes }
      rfl rfl).2.2 rfl).2⟩

/-! Decoding the descriptor. -/

set_option maxRecDepth 100000 in
/-- Arithmetic of the lanes on byte offsets. -/
theorem lane_facts : ∀ o, o < 256 →
    (4 * (o / 4) + (o &&& 2) = o &&& 0xFE ∧ 4 * (o / 4) = o &&& 0xFC ∧
      (o % 2 = 1 → (o - 1) / 4 = o / 4 ∧ (o - 1) &&& 2 = o &&& 2) ∧
      (o &&& 0xFC) / 4 = o / 4) := by
  decide

theorem bitfield_reg_of_le (H : pci_mgr) (o : Nat) (hreg : 6 ≤ H.reg_bits) (ho : o ≤ 255) :
    bitfield H.reg_bits (o / 4) = o / 4 := by
  have h64 : 2 ^ 6 ≤ 2 ^ H.reg_bits := Nat.pow_le_pow_right (Nat.succ_pos 1) hreg
  exact bitfield_of_lt H.reg_bits (o / 4) (by omega)

/-- C19: with a register field of at least 6 bits and a lane field of at least
2 bits, for every offset `o` in `[0, 255]` the register index and lane each
accessor hands to the raw primitive satisfy `4 * reg + lane = o` for the byte
accessors, `o` with bit 0 cleared for the word accessors, and `o` with bits 0
and 1 cleared for the long accessors.  Consequently a word access at an odd
`o` issues the same transaction as at `o - 1`, a long access at `o` the same
as at `o & ~3`, and two byte accesses in `[0, 255]` with the same descriptor
are at the same offset. -/
theorem descriptor_decodes {σ : Type} (H : pci_mgr) (P : raw_pci σ) (s : σ)
    (bus_no device_no func_no o data : Nat)
    (hreg : 6 ≤ H.reg_bits) (hlane : 2 ≤ H.offset_bits) (ho : o ≤ 255) :
    (((pci_config_out_byte H P.logged bus_no device_no func_no o data (s, [])).2.map
        fun t => 4 * t.addr.reg + t.addr.offset) = [o] ∧
      ((pci_config_in_byte H P.logged bus_no device_no func_no o (s, [])).2.2.map
        fun t => 4 * t.addr.reg + t.addr.offset) = [o] ∧
      ((pci_config_out_word H P.logged bus_no device_no func_no o data (s, [])).2.map
        fun t => 4 * t.addr.reg + t.addr.offset) = [o &&& 0xFE] ∧
      ((pci_config_in_word H P.logged bus_no device_no func_no o (s, [])).2.2.map
        fun t => 4 * t.addr.reg + t.addr.offset) = [o &&& 0xFE] ∧
      ((pci_config_out_long H P.logged bus_no device_no func_no o data (s, [])).2.map
        fun t => 4 * t.addr.reg + t.addr.offset) = [o &&& 0xFC] ∧
      ((pci_config_in_long H P.logged bus_no device_no func_no o (s, [])).2.2.map
        fun t => 4 * t.addr.reg + t.addr.offset) = [o &&& 0xFC]) ∧
    (o % 2 = 1 →
      (pci_config_out_word H P.logged bus_no device_no func_no o data (s, [])).2
        = (pci_config_out_word H P.logged bus_no device_no func_no (o - 1) data (s, [])).2 ∧
      (pci_config_in_word H P.logged bus_no device_no func_no o (s, [])).2.2
        = (pci_config_in_word H P.logged bus_no device_no func_no (o - 1) (s, [])).2.2) ∧
    ((pci_config_out_long H P.logged bus_no device_no func_no o data (s, [])).2
        = (pci_config_out_long H P.logged bus_no device_no func_no (o &&& 0xFC) data (s, [])).2 ∧
      (pci_config_in_long H P.logged bus_no device_no func_no o (s, [])).2.2
        = (pci_config_in_long H P.logged bus_no device_no func_no (o &&& 0xFC) (s, [])).2.2) ∧
    (∀ o2, o2 ≤ 255 →
      ((pci_config_in_byte H P.logged bus_no device_no func_no o (s, [])).2.2.map pci_txn.addr
          = (pci_config_in_byte H P.logged bus_no device_no func_no o2 (s, [])).2.2.map
              pci_txn.addr → o = o2) ∧
      ((pci_config_out_byte H P.logged bus_no device_no func_no o data (s, [])).2.map
            pci_txn.addr
          = (pci_config_out_byte H P.logged bus_no device_no func_no o2 data (s, [])).2.map
              pci_txn.addr → o = o2)) := by
  have hr := bitfield_reg_of_le H o hreg ho
  have h0 := bitfield_zero H.offset_bits
  have h2 := bitfield_and_two H.offset_bits o hlane
  have h4 := bitfield_mod_four H.offset_bits o hlane
  have hl := lane_facts o (by omega)
  have hdm : 4 * (o / 4) + o % 4 = o := Nat.div_add_mod o 4
  refine ⟨⟨?_, ?_, ?_, ?_, ?_, ?_⟩, fun hodd => ⟨?_, ?_⟩, ⟨?_, ?_⟩, fun o2 ho2 => ⟨?_, ?_⟩⟩
  · simp [pci_config_out_byte, raw_pci.logged, pci_txn.addr, hr, h4, hdm]
  · simp [pci_config_in_byte, raw_pci.logged, pci_txn.addr, hr, h4, hdm]
  · simp [pci_config_out_word, raw_pci.logged, pci_txn.addr, hr, h2, hl.1]
  · simp [pci_config_in_word, raw_pci.logged, pci_txn.addr, hr, h2, hl.1]
  · simp [pci_config_out_long, raw_pci.logged, pci_txn.addr, hr, h0, hl.2.1]
  · simp [pci_config_in_long, raw_pci.logged, pci_txn.addr, hr, h0, hl.2.1]
  · simp [pci_config_out_word, raw_pci.logged, (hl.2.2.1 hodd).1, (hl.2.2.1 hodd).2]
  · simp [pci_config_in_word, raw_pci.logged, (hl.2.2.1 hodd).1, (hl.2.2.1 hodd).2]
  · simp [pci_config_out_long, raw_pci.logged, hl.2.2.2]
  · simp [pci_config_in_long, raw_pci.logged, hl.2.2.2]
  · intro h
    have hr2 := bitfield_reg_of_le H o2 hreg ho2
    have h42 := bitfield_mod_four H.offset_bits o2 hlane
    have ha := (List.cons.inj h).1
    have hreg_eq : bitfield H.reg_bits (o / 4) = bitfield H.reg_bits (o2 / 4) :=
      congrArg pci_addr_reg.reg ha
    have hlane_eq : bitfield H.offset_bits (o % 4) = bitfield H.offset_bits (o2 % 4) :=
      congrArg pci_addr_reg.offset ha
    rw [hr, hr2] at hreg_eq
    rw [h4, h42] at hlane_eq
    omega
  · intro h
    have hr2 := bitfield_reg_of_le H o2 hreg ho2
    have h42 := bitfield_mod_four H.offset_bits o2 hlane
    have ha := (List.cons.inj h).1
    have hreg_eq : bitfield H.reg_bits (o / 4) = bitfield H.reg_bits (o2 / 4) :=
      congrArg pci_addr_reg.reg ha
    have hlane_eq : bitfield H.offset_bits (o % 4) = bitfield H.offset_bits (o2 % 4) :=
      congrArg pci_addr_reg.offset ha
    rw [hr, hr2] at hreg_eq
    rw [h4, h42] at hlane_eq
    omega

/-- C19 at offset `0x07` with the 6-bit register field and 2-bit lane field:
the byte descriptor decodes to 7, the word descriptor to 6, the long
descriptor to 4, and the word read at 7 is the word read at 6. -/
theorem descriptor_decodes_witness :
    (6 ≤ pci_mgr_std.reg_bits ∧ 2 ≤ pci_mgr_std.offset_bits ∧ 0x07 ≤ 255 ∧ 0x07 % 2 = 1) ∧
    ((pci_config_in_byte pci_mgr_std sim_pci.logged 0 1 0 0x07 (fun _ => 0, [])).2.2.map
      fun t => 4 * t.addr.reg + t.addr.offset) = [7] ∧
    ((pci_config_in_word pci_mgr_std sim_pci.logged 0 1 0 0x07 (fun _ => 0, [])).2.2.map
      fun t => 4 * t.addr.reg + t.addr.offset) = [6] ∧
    ((pci_config_in_long pci_mgr_std sim_pci.logged 0 1 0 0x07 (fun _ => 0, [])).2.2.map
      fun t => 4 * t.addr.reg + t.addr.offset) = [4] ∧
    (pci_config_in_word pci_mgr_std sim_pci.logged 0 1 0 0x07 (fun _ => 0, [])).2.2
      = (pci_config_in_word pci_mgr_std sim_pci.logged 0 1 0 (0x07 - 1) (fun _ => 0, [])).2.2 :=
  ⟨⟨by decide, by decide, by decide, by decide⟩,
    (descriptor_decodes pci_mgr_std sim_pci (fun _ => 0) 0 1 0 0x07 0
      (by decide) (by decide) (by decide)).1.2.1,
    (descriptor_decodes pci_mgr_std sim_pci (fun _ => 0) 0 1 0 0x07 0
      (by decide) (by decide) (by decide)).1.2.2.2.1,
    (descriptor_decodes pci_mgr_std sim_pci (fun _ => 0) 0 1 0 0x07 0
      (by decide) (by decide) (by decide)).1.2.2.2.2.2,
    ((descriptor_decodes pci_mgr_std sim_pci (fun _ => 0) 0 1 0 0x07 0
      (by decide) (by decide) (by decide)).2.1 (by decide)).2⟩

end PciConfig
